import Mathlib

/-!
Verification of the ACF "Buy a Day" reservation core.

This file shallowly embeds the date-allocation state machine of the
repository: the calendar-day ledger (Prisma table `CalendarDay`), the
append-only audit log (`AuditLog`), and the operations that mutate them:

* `createHold` / `releaseHold`   — src/app/api/checkout/hold/route.ts
* `expireHolds`                  — src/app/api/calendar/route.ts (lazy expiry)
* `createAdminHold` / `releaseAdminHold` — src/app/api/admin/holds routes
* `createPaymentIntent`          — src/app/api/stripe/create-payment-intent/route.ts
* `handlePaymentSucceeded` / `handlePaymentFailed` / `handleChargeRefunded`
                                 — src/app/api/stripe/webhook/route.ts
* `adminRefund`                  — src/app/api/admin/refund route
* `editDedicationText`           — src/app/api/admin/days/[date]/route.ts
* `generateOrderId`              — src/lib/orderNumber.ts

Timestamps are `Nat` milliseconds, tokens and identifiers `Nat`, free text
`String`.  Each HTTP handler runs its mutation inside one database
transaction; a thrown precondition error rolls the transaction back, which
the embedding renders as returning the unchanged ledger (or an `Except`
error carrying no ledger).  Database row updates (`update where id`) are
rendered as a `List.map` touching the rows whose `id` matches, which agrees
with the source under the schema constraint that `id` is a primary key.
-/

/-- The `DayStatus` enum of the Prisma schema. -/
inductive DayStatus
  | AVAILABLE
  | CHECKOUT_HOLD
  | ADMIN_HOLD
  | SOLD
  deriving DecidableEq

/-- One row of the `CalendarDay` table. -/
structure CalendarDay where
  id : Nat
  date : Nat
  status : DayStatus
  holdToken : Option Nat := none
  holdExpiresAt : Option Nat := none
  adminNote : Option String := none
  buyerFirstName : Option String := none
  buyerLastName : Option String := none
  buyerEmail : Option String := none
  buyerPhone : Option String := none
  billingAddress : Option String := none
  contactOptIn : Bool := false
  dedicationText : Option String := none
  stripePaymentIntentId : Option Nat := none
  orderId : Option String := none
  amountPaidCents : Option Nat := none
  paidAt : Option Nat := none
  deriving DecidableEq

/-- The structured `oldValue` / `newValue` JSON snapshots stored on audit
rows.  Each field is `none` when the corresponding JSON key is absent. -/
structure Snapshot where
  status : Option DayStatus := none
  holdExpiresAt : Option Nat := none
  holdToken : Option (Option Nat) := none
  orderId : Option (Option String) := none
  amountPaidCents : Option (Option Nat) := none
  adminNote : Option (Option String) := none
  stripeRefundId : Option Nat := none
  restored : Option Bool := none
  refundedViaStripe : Option Bool := none
  dedicationText : Option (Option String) := none
  deriving DecidableEq

/-- One row of the append-only `AuditLog` table. -/
structure AuditEntry where
  calendarDayId : Nat
  action : String
  oldValue : Snapshot := {}
  newValue : Snapshot := {}
  performedBy : String
  ipAddress : Option String := none
  notes : Option String := none
  deriving DecidableEq

/- Action constants of src/lib/auditLog.ts (`AUDIT_ACTIONS`). -/
namespace AUDIT_ACTIONS

def STATUS_CHANGE : String := "STATUS_CHANGE"
def TEXT_EDIT : String := "TEXT_EDIT"
def HOLD_CREATED : String := "HOLD_CREATED"
def HOLD_RELEASED : String := "HOLD_RELEASED"
def CHECKOUT_HOLD_CREATED : String := "CHECKOUT_HOLD_CREATED"
def CHECKOUT_HOLD_EXPIRED : String := "CHECKOUT_HOLD_EXPIRED"
def PAYMENT_RECEIVED : String := "PAYMENT_RECEIVED"
def REFUND_ISSUED : String := "REFUND_ISSUED"
def DATE_RESTORED : String := "DATE_RESTORED"

end AUDIT_ACTIONS

/-- The database: the `CalendarDay` table plus the `AuditLog` table. -/
structure Ledger where
  days : List CalendarDay
  audit : List AuditEntry
  deriving DecidableEq

/-- Lookup `findUnique({ where: { date } })`. -/
def findByDate (st : Ledger) (date : Nat) : Option CalendarDay :=
  st.days.find? (fun d => d.date == date)

/-- Lookup `findUnique({ where: { id } })`. -/
def findById (st : Ledger) (i : Nat) : Option CalendarDay :=
  st.days.find? (fun d => d.id == i)

/-- Lookup `findUnique({ where: { stripePaymentIntentId } })`. -/
def findByPI (st : Ledger) (piId : Nat) : Option CalendarDay :=
  st.days.find? (fun d => d.stripePaymentIntentId == some piId)

/-- Row update `update({ where: { id }, data })`: rewrite the rows whose `id` matches. -/
def updateDay (st : Ledger) (i : Nat) (f : CalendarDay → CalendarDay) : Ledger :=
  { st with days := st.days.map (fun d => if d.id == i then f d else d) }

/-- Append `auditLog.create(...)`: one immutable entry. -/
def appendAudit (st : Ledger) (e : AuditEntry) : Ledger :=
  { st with audit := st.audit ++ [e] }

/-! ## createHold — POST /api/checkout/hold -/

/-- Constant `HOLD_DURATION_MS = 10 * 60 * 1000` (10 minutes). -/
def HOLD_DURATION_MS : Nat := 10 * 60 * 1000

/-- Test `day.holdExpiresAt && day.holdExpiresAt < now`. -/
def holdExpired (day : CalendarDay) (now : Nat) : Bool :=
  match day.holdExpiresAt with
  | some e => e < now
  | none => false

/-- Reverting a hold: AVAILABLE with the hold fields cleared (written by
`releaseHold`, `expireHolds` and the payment-failed handler). -/
def clearHoldFields (d : CalendarDay) : CalendarDay :=
  { d with status := .AVAILABLE, holdToken := none, holdExpiresAt := none }

/-- The row data written by a winning `createHold`. -/
def holdWrite (token expiry : Nat) (d : CalendarDay) : CalendarDay :=
  { d with status := .CHECKOUT_HOLD, holdToken := some token,
           holdExpiresAt := some expiry }

/-- Errors thrown inside the hold transaction. -/
inductive HoldError
  | NotFound
  | Conflict (s : DayStatus)
  deriving DecidableEq

/-- The audit row written by a successful `createHold`. -/
def holdCreatedEntry (day : CalendarDay) (expiry : Nat) (ip : String) : AuditEntry :=
  { calendarDayId := day.id
    action := AUDIT_ACTIONS.CHECKOUT_HOLD_CREATED
    oldValue := { status := some day.status }
    newValue := { status := some .CHECKOUT_HOLD, holdExpiresAt := some expiry }
    performedBy := "customer-ip:" ++ ip
    ipAddress := some ip }

/-- POST /api/checkout/hold: take a 10-minute checkout hold on `date`.
Succeeds when the day is AVAILABLE, or CHECKOUT_HOLD with an expired
`holdExpiresAt`; on success returns the new ledger, the token and the
expiry.  A thrown error rolls the transaction back. -/
def createHold (st : Ledger) (date now token : Nat) (ip : String) :
    Except HoldError (Ledger × Nat × Nat) :=
  match findByDate st date with
  | none => .error .NotFound
  | some day =>
    let canHold := day.status == .AVAILABLE ||
      (day.status == .CHECKOUT_HOLD && holdExpired day now)
    if canHold then
      let expiry := now + HOLD_DURATION_MS
      let st1 := updateDay st day.id (holdWrite token expiry)
      .ok (appendAudit st1 (holdCreatedEntry day expiry ip), token, expiry)
    else
      .error (.Conflict day.status)

/-! ## releaseHold — DELETE /api/checkout/hold -/

/-- The audit row written by a matching `releaseHold`. -/
def holdReleasedEntry (day : CalendarDay) : AuditEntry :=
  { calendarDayId := day.id
    action := AUDIT_ACTIONS.CHECKOUT_HOLD_EXPIRED
    oldValue := { status := some .CHECKOUT_HOLD }
    newValue := { status := some .AVAILABLE }
    performedBy := "customer"
    notes := some "Hold released by customer (navigated away)" }

/-- DELETE /api/checkout/hold: release a hold by token.  A no-op when the
day is absent, not on CHECKOUT_HOLD, or the token differs. -/
def releaseHold (st : Ledger) (date token : Nat) : Ledger :=
  match findByDate st date with
  | none => st
  | some day =>
    if day.status == .CHECKOUT_HOLD && day.holdToken == some token then
      let st1 := updateDay st day.id clearHoldFields
      appendAudit st1 (holdReleasedEntry day)
    else
      st

/-! ## expireHolds — the lazy expiry at the top of GET /api/calendar -/

/-- The findMany filter: CHECKOUT_HOLD rows with `holdExpiresAt < now`. -/
def isExpiredHold (now : Nat) (d : CalendarDay) : Bool :=
  d.status == .CHECKOUT_HOLD && holdExpired d now

/-- The audit row written for one expired hold. -/
def holdExpiredEntry (d : CalendarDay) : AuditEntry :=
  { calendarDayId := d.id
    action := AUDIT_ACTIONS.CHECKOUT_HOLD_EXPIRED
    oldValue := { status := some .CHECKOUT_HOLD, holdToken := some d.holdToken }
    newValue := { status := some .AVAILABLE }
    performedBy := "system"
    notes := some "Checkout hold expired automatically" }

/-- GET /api/calendar first reverts every expired checkout hold to
AVAILABLE inside one transaction, appending one audit row per reverted
hold.  The per-row loop over the `findMany` result is rendered as a map
over the table plus an appended batch of audit rows. -/
def expireHolds (st : Ledger) (now : Nat) : Ledger :=
  { days := st.days.map (fun d => if isExpiredHold now d then clearHoldFields d else d)
    audit := st.audit ++ (st.days.filter (isExpiredHold now)).map holdExpiredEntry }

/-! ## Admin holds — POST / DELETE /api/admin/holds -/

/-- Errors thrown inside the admin-hold transactions. -/
inductive AdminHoldError
  | NOT_FOUND
  | ALREADY_SOLD
  | ALREADY_HELD
  | NOT_HELD
  deriving DecidableEq

/-- The row data written by `createAdminHold`. -/
def adminHoldWrite (note : Option String) (d : CalendarDay) : CalendarDay :=
  { d with status := .ADMIN_HOLD, adminNote := note,
           holdToken := none, holdExpiresAt := none }

/-- The row data written by `releaseAdminHold`. -/
def adminReleaseWrite (d : CalendarDay) : CalendarDay :=
  { d with status := .AVAILABLE, adminNote := none }

/-- The audit row written by a successful `createAdminHold`. -/
def adminHoldCreatedEntry (day : CalendarDay) (note : Option String)
    (admin : String) : AuditEntry :=
  { calendarDayId := day.id
    action := AUDIT_ACTIONS.HOLD_CREATED
    oldValue := { status := some day.status }
    newValue := { status := some .ADMIN_HOLD, adminNote := some note }
    performedBy := admin
    notes := some (note.getD "Admin hold created") }

/-- POST /api/admin/holds: put a day on ADMIN_HOLD.  Fails on SOLD or an
existing ADMIN_HOLD; clears any stale checkout-hold fields. -/
def createAdminHold (st : Ledger) (date : Nat) (note : Option String)
    (admin : String) : Except AdminHoldError Ledger :=
  match findByDate st date with
  | none => .error .NOT_FOUND
  | some day =>
    if day.status == .SOLD then .error .ALREADY_SOLD
    else if day.status == .ADMIN_HOLD then .error .ALREADY_HELD
    else
      let st1 := updateDay st day.id (adminHoldWrite note)
      .ok (appendAudit st1 (adminHoldCreatedEntry day note admin))

/-- The audit row written by a successful `releaseAdminHold`. -/
def adminHoldReleasedEntry (day : CalendarDay) (admin : String) : AuditEntry :=
  { calendarDayId := day.id
    action := AUDIT_ACTIONS.HOLD_RELEASED
    oldValue := { status := some .ADMIN_HOLD, adminNote := some day.adminNote }
    newValue := { status := some .AVAILABLE }
    performedBy := admin
    notes := some "Admin hold released" }

/-- DELETE /api/admin/holds: release an admin hold; fails unless the day is
on ADMIN_HOLD. -/
def releaseAdminHold (st : Ledger) (date : Nat) (admin : String) :
    Except AdminHoldError Ledger :=
  match findByDate st date with
  | none => .error .NOT_FOUND
  | some day =>
    if day.status == .ADMIN_HOLD then
      let st1 := updateDay st day.id adminReleaseWrite
      .ok (appendAudit st1 (adminHoldReleasedEntry day admin))
    else .error .NOT_HELD

/-! ## generateOrderId — src/lib/orderNumber.ts -/

/-- Count of rows with `status = SOLD` and `orderId` not null, the
`prisma.calendarDay.count` query of `generateOrderId`. -/
def soldWithOrderCount (st : Ledger) : Nat :=
  (st.days.filter (fun d => d.status == .SOLD && d.orderId.isSome)).length

/-- Left-pad the sequence number to five digits (`padStart(5, "0")`). -/
def padSeq (n : Nat) : String :=
  let s := toString n
  if s.length < 5 then String.mk (List.replicate (5 - s.length) '0') ++ s else s

/-- Order reference `ACF-<year>-<seq>` where the sequence number is the
count of existing sold-with-order rows plus one. -/
def generateOrderId (st : Ledger) (year : Nat) : String :=
  "ACF-" ++ toString year ++ "-" ++ padSeq (soldWithOrderCount st + 1)

/-! ## createPaymentIntent — POST /api/stripe/create-payment-intent -/

/-- Validated buyer form data carried into the payment intent. -/
structure BuyerInfo where
  firstName : String
  lastName : String
  email : String
  phone : Option String := none
  billingAddress : String := ""
  contactOptIn : Bool := false
  dedicationText : Option String := none
  deriving DecidableEq

/-- The row data written by `createPaymentIntent`. -/
def piWrite (piId : Nat) (b : BuyerInfo) (d : CalendarDay) : CalendarDay :=
  { d with stripePaymentIntentId := some piId,
           buyerFirstName := some b.firstName,
           buyerLastName := some b.lastName,
           buyerEmail := some b.email,
           buyerPhone := b.phone,
           billingAddress := some b.billingAddress,
           contactOptIn := b.contactOptIn,
           dedicationText := b.dedicationText }

/-- Errors thrown inside the create-payment-intent transaction. -/
inductive PaymentIntentError
  | DATE_NOT_FOUND
  | INVALID_STATUS (s : DayStatus)
  | INVALID_HOLD_TOKEN
  | HOLD_EXPIRED
  deriving DecidableEq

/-- POST /api/stripe/create-payment-intent: after verifying a live hold
with a matching token, store the Stripe payment-intent id and pre-populate
the buyer fields on the day row.  Writes no audit entry. -/
def createPaymentIntent (st : Ledger) (date token now piId : Nat) (b : BuyerInfo) :
    Except PaymentIntentError Ledger :=
  match findByDate st date with
  | none => .error .DATE_NOT_FOUND
  | some day =>
    if day.status != .CHECKOUT_HOLD then .error (.INVALID_STATUS day.status)
    else if day.holdToken != some token then .error .INVALID_HOLD_TOKEN
    else if holdExpired day now then .error .HOLD_EXPIRED
    else
      .ok (updateDay st day.id (piWrite piId b))

/-! ## Stripe webhook — POST /api/stripe/webhook -/

/-- The metadata attached to a PaymentIntent at creation time. -/
structure PIMetadata where
  calendarDayId : Option Nat := none
  date : Option Nat := none
  holdToken : Option Nat := none
  buyerFirstName : Option String := none
  buyerLastName : Option String := none
  buyerEmail : Option String := none
  buyerPhone : Option String := none
  billingAddress : Option String := none
  contactOptIn : Bool := false
  dedicationText : Option String := none
  deriving DecidableEq

/-- A Stripe PaymentIntent as seen by the webhook handlers. -/
structure PaymentIntent where
  id : Nat
  amount : Nat
  metadata : PIMetadata := {}
  deriving DecidableEq

/-- The row data written by a finalizing payment-succeeded event. -/
def soldWrite (pi : PaymentIntent) (orderId : String) (paidAt : Nat)
    (d : CalendarDay) : CalendarDay :=
  { d with status := .SOLD, orderId := some orderId,
           amountPaidCents := some pi.amount, paidAt := some paidAt,
           stripePaymentIntentId := some pi.id,
           holdToken := none, holdExpiresAt := none,
           buyerFirstName := d.buyerFirstName <|> pi.metadata.buyerFirstName,
           buyerLastName := d.buyerLastName <|> pi.metadata.buyerLastName,
           buyerEmail := d.buyerEmail <|> pi.metadata.buyerEmail,
           buyerPhone := d.buyerPhone <|> pi.metadata.buyerPhone,
           billingAddress := d.billingAddress <|> pi.metadata.billingAddress,
           contactOptIn := d.contactOptIn || pi.metadata.contactOptIn,
           dedicationText := d.dedicationText <|> pi.metadata.dedicationText }

/-- The audit row written when a payment succeeds. -/
def paymentReceivedEntry (day : CalendarDay) (orderId : String)
    (amount piId : Nat) : AuditEntry :=
  { calendarDayId := day.id
    action := AUDIT_ACTIONS.PAYMENT_RECEIVED
    oldValue := { status := some day.status }
    newValue := { status := some .SOLD, orderId := some (some orderId),
                  amountPaidCents := some (some amount) }
    performedBy := "stripe:" ++ toString piId
    notes := some "Stripe PaymentIntent succeeded" }

/-- Webhook branch for `payment_intent.succeeded`.  Returns the resulting
ledger and either success (the event was handled or deliberately skipped)
or the thrown handler error.  Mirrors `handlePaymentSucceeded`:
missing metadata logs and returns; an existing SOLD row for this
payment-intent id logs and returns (idempotent redelivery); otherwise
inside one transaction the day transitions to SOLD unless it has moved on
with a different payment intent. -/
def handlePaymentSucceeded (st : Ledger) (pi : PaymentIntent)
    (paidAt year : Nat) : Ledger × Except String Unit :=
  match pi.metadata.calendarDayId, pi.metadata.date with
  | none, _ => (st, .ok ())
  | some _, none => (st, .ok ())
  | some dayId, some _ =>
    let existing := findByPI st pi.id
    if (existing.map (fun d => d.status)) == some .SOLD then (st, .ok ())
    else
      let orderId := generateOrderId st year
      match findById st dayId with
      | none => (st, .error "CalendarDay not found")
      | some day =>
        if day.status != .CHECKOUT_HOLD && day.stripePaymentIntentId != some pi.id then
          (st, .ok ())
        else
          let st1 := updateDay st day.id (soldWrite pi orderId paidAt)
          (appendAudit st1 (paymentReceivedEntry day orderId pi.amount pi.id), .ok ())

/-- The row data written when a payment fails: revert the hold and drop
the payment-intent reference. -/
def paymentFailWrite (d : CalendarDay) : CalendarDay :=
  { d with status := .AVAILABLE, holdToken := none, holdExpiresAt := none,
           stripePaymentIntentId := none }

/-- The audit row written when a payment fails and the hold is released. -/
def paymentFailedEntry (day : CalendarDay) (piId : Nat) : AuditEntry :=
  { calendarDayId := day.id
    action := AUDIT_ACTIONS.CHECKOUT_HOLD_EXPIRED
    oldValue := { status := some .CHECKOUT_HOLD }
    newValue := { status := some .AVAILABLE }
    performedBy := "stripe:" ++ toString piId
    notes := some "Payment failed" }

/-- Webhook branch for `payment_intent.payment_failed`: revert the day to
AVAILABLE when it is still on CHECKOUT_HOLD, otherwise a no-op. -/
def handlePaymentFailed (st : Ledger) (pi : PaymentIntent) : Ledger :=
  match pi.metadata.calendarDayId with
  | none => st
  | some dayId =>
    match findById st dayId with
    | none => st
    | some day =>
      if day.status == .CHECKOUT_HOLD then
        let st1 := updateDay st day.id paymentFailWrite
        appendAudit st1 (paymentFailedEntry day pi.id)
      else st

/-- A Stripe Charge as seen by `handleChargeRefunded`. -/
structure Charge where
  paymentIntent : Option Nat := none
  amountRefunded : Nat := 0
  deriving DecidableEq

/-- The informational audit row written by `handleChargeRefunded`. -/
def chargeRefundedEntry (day : CalendarDay) (piId : Nat) : AuditEntry :=
  { calendarDayId := day.id
    action := AUDIT_ACTIONS.REFUND_ISSUED
    oldValue := { status := some day.status }
    newValue := { refundedViaStripe := some true }
    performedBy := "stripe:" ++ toString piId
    notes := some "Charge refunded via Stripe" }

/-- Webhook branch for `charge.refunded`: informational only — look the day
up by payment-intent id and, when found, append one audit entry. -/
def handleChargeRefunded (st : Ledger) (charge : Charge) : Ledger :=
  match charge.paymentIntent with
  | none => st
  | some piId =>
    match findByPI st piId with
    | none => st
    | some day => appendAudit st (chargeRefundedEntry day piId)

/-- The webhook events dispatched by POST /api/stripe/webhook after
signature verification. -/
inductive StripeEvent
  | paymentIntentSucceeded (pi : PaymentIntent)
  | paymentIntentFailed (pi : PaymentIntent)
  | chargeRefunded (c : Charge)
  | otherEvent
  deriving DecidableEq

/-- POST /api/stripe/webhook after a verified signature: dispatch on the
event type; a handler that returns normally yields HTTP 200 with
`received: true`, a thrown handler error yields HTTP 500. -/
def webhookPost (st : Ledger) (ev : StripeEvent) (paidAt year : Nat) :
    Ledger × Nat :=
  match ev with
  | .paymentIntentSucceeded pi =>
    match handlePaymentSucceeded st pi paidAt year with
    | (st1, .ok _) => (st1, 200)
    | (st1, .error _) => (st1, 500)
  | .paymentIntentFailed pi => (handlePaymentFailed st pi, 200)
  | .chargeRefunded c => (handleChargeRefunded st c, 200)
  | .otherEvent => (st, 200)

/-! ## adminRefund — POST /api/admin/refund -/

/-- Stripe refund statuses relevant to the admin refund flow. -/
inductive RefundStatus
  | succeeded
  | pending
  | failed
  | canceled
  deriving DecidableEq

/-- The payment-gateway response to `stripe.refunds.create`. -/
structure StripeRefund where
  id : Nat
  status : RefundStatus
  amount : Nat := 0
  deriving DecidableEq

/-- Failure modes of the admin refund route. -/
inductive RefundError
  | NotFound
  | NotSold
  | NoPaymentIntent
  | StripeFailed (s : RefundStatus)
  | GatewayException
  deriving DecidableEq

/-- Result of the refund route: the (possibly unchanged) ledger, the
response, and how many outbound gateway refund calls were made. -/
structure RefundOutcome where
  ledger : Ledger
  result : Except RefundError (Nat × DayStatus)
  gatewayCalls : Nat

/-- The row data written by a successful admin refund: only the status and
the admin note change, buyer and payment fields are kept for records. -/
def refundWrite (restoreDate : Bool) (today reason : String)
    (d : CalendarDay) : CalendarDay :=
  { d with status := if restoreDate then .AVAILABLE else .ADMIN_HOLD,
           adminNote := if restoreDate then none
             else some ("Refunded on " ++ today ++ " - " ++ reason) }

/-- The audit row written by a successful admin refund. -/
def refundIssuedEntry (day : CalendarDay) (newStatus : DayStatus)
    (refundId : Nat) (restoreDate : Bool) (reason admin : String) : AuditEntry :=
  { calendarDayId := day.id
    action := AUDIT_ACTIONS.REFUND_ISSUED
    oldValue := { status := some .SOLD, orderId := some day.orderId,
                  amountPaidCents := some day.amountPaidCents }
    newValue := { status := some newStatus, stripeRefundId := some refundId,
                  restored := some restoreDate }
    performedBy := admin
    notes := some reason }

/-- POST /api/admin/refund: refund a sold day.  Preconditions (day exists,
status SOLD, a stored payment-intent id) are checked before any gateway
call; the gateway outcome is passed in as `gateway` (`none` renders a
thrown Stripe error).  Only a `succeeded` or `pending` refund status leads
to the local transaction, which sets the day to AVAILABLE or ADMIN_HOLD
(keeping buyer and payment fields for records) and appends one audit row. -/
def adminRefund (st : Ledger) (date : Nat) (restoreDate : Bool)
    (reason admin today : String) (gateway : Option StripeRefund) : RefundOutcome :=
  match findByDate st date with
  | none => ⟨st, .error .NotFound, 0⟩
  | some day =>
    if day.status != .SOLD then ⟨st, .error .NotSold, 0⟩
    else
      match day.stripePaymentIntentId with
      | none => ⟨st, .error .NoPaymentIntent, 0⟩
      | some _ =>
        match gateway with
        | none => ⟨st, .error .GatewayException, 1⟩
        | some refund =>
          if refund.status != .succeeded && refund.status != .pending then
            ⟨st, .error (.StripeFailed refund.status), 1⟩
          else
            let newStatus := if restoreDate then DayStatus.AVAILABLE
              else DayStatus.ADMIN_HOLD
            let st1 := updateDay st day.id (refundWrite restoreDate today reason)
            ⟨appendAudit st1
              (refundIssuedEntry day newStatus refund.id restoreDate reason admin),
             .ok (refund.id, newStatus), 1⟩

/-! ## editDedicationText — PATCH /api/admin/days/[date] -/

/-- Constant `MAX_DEDICATION_LENGTH` of src/lib/validation.ts. -/
def MAX_DEDICATION_LENGTH : Nat := 26

/-- Characters matched by `ALLOWED_CHARS_NO_EMOJI`
(letters, digits, space and listed ASCII punctuation). -/
def allowedCharNoEmoji (c : Char) : Bool :=
  c.isAlphanum || c == ' ' || c == '!' || c == '@' || c == '#' || c == '&' ||
  c == '(' || c == ')' || c == '-' || c == '_' || c == Char.ofNat 39 ||
  c == Char.ofNat 34 || c == '.' || c == ',' || c == ':' || c == ';' ||
  c == '?' || c == '+' || c == '=' || c == '%' || c == '*'

/-- Code points matched by `EMOJI_REGEX`. -/
def isEmojiChar (c : Char) : Bool :=
  (0x1F300 <= c.toNat && c.toNat <= 0x1F9FF) ||
  (0x2600 <= c.toNat && c.toNat <= 0x26FF) ||
  (0x2700 <= c.toNat && c.toNat <= 0x27BF) ||
  (0xFE00 <= c.toNat && c.toNat <= 0xFE0F) ||
  (0x1F000 <= c.toNat && c.toNat <= 0x1FFFF)

/-- Characters admitted by `ALLOWED_CHARS_WITH_EMOJI`
(the Unicode letter, number, punctuation, separator and symbol classes;
rendered here as every non-control scalar value). -/
def allowedCharWithEmoji (c : Char) : Bool :=
  !(c.toNat < 0x20 || (0x7F <= c.toNat && c.toNat <= 0x9F))

/-- Validation of dedication text (src/lib/validation.ts
`validateDedicationText`): empty-after-trim text passes unless required;
otherwise the text must fit in 26 characters, avoid emoji when disallowed,
and use only the allowed character class.  Character-class tests run over
the underlying character list. -/
def validateDedicationText (text : String) (required emojisAllowed : Bool) : Bool :=
  if text.data.all Char.isWhitespace then !required
  else if text.length > MAX_DEDICATION_LENGTH then false
  else if !emojisAllowed && text.data.any isEmojiChar then false
  else if emojisAllowed then text.data.all allowedCharWithEmoji
  else text.data.all allowedCharNoEmoji

/-- One pass of trim-and-collapse: `pendingSpace` records whitespace seen
since the last word, `started` whether a word was emitted yet. -/
def sanitizeAux (pendingSpace started : Bool) : List Char → List Char
  | [] => []
  | c :: cs =>
    if c.isWhitespace then sanitizeAux true started cs
    else
      (if pendingSpace && started then [' '] else []) ++
        c :: sanitizeAux false true cs

/-- Sanitization (src/lib/validation.ts `sanitizeDedicationText`): trim and
collapse internal whitespace runs to single spaces. -/
def sanitizeDedicationText (text : String) : String :=
  String.mk (sanitizeAux false false text.data)

/-- Failure modes of the dedication-text edit route. -/
inductive EditError
  | Invalid
  | NotFound
  | NotSold
  deriving DecidableEq

/-- The stored text of a dedication edit: sanitized, empty collapsing to
null. -/
def editNewText (text : String) : Option String :=
  let sanitized := sanitizeDedicationText text
  if sanitized == "" then none else some sanitized

/-- The row data written by a dedication-text edit. -/
def textWrite (newText : Option String) (d : CalendarDay) : CalendarDay :=
  { d with dedicationText := newText }

/-- The audit row written by a successful dedication-text edit.  Its
snapshots carry only the old and new text, no day status. -/
def textEditEntry (day : CalendarDay) (newText : Option String)
    (admin : String) : AuditEntry :=
  { calendarDayId := day.id
    action := AUDIT_ACTIONS.TEXT_EDIT
    oldValue := { dedicationText := some day.dedicationText }
    newValue := { dedicationText := some newText }
    performedBy := admin
    notes := some "Admin edited dedication text" }

/-- PATCH /api/admin/days/[date]: edit the dedication text of a sold day.
Validates against settings (admin edits are never `required`), sanitizes,
requires status SOLD, then updates the row and appends one TEXT_EDIT audit
entry. -/
def editDedicationText (st : Ledger) (date : Nat) (text admin : String)
    (emojisAllowed : Bool) : Except EditError Ledger :=
  if !validateDedicationText text false emojisAllowed then .error .Invalid
  else
    match findByDate st date with
    | none => .error .NotFound
    | some day =>
      if day.status != .SOLD then .error .NotSold
      else
        let newText := editNewText text
        let st1 := updateDay st day.id (textWrite newText)
        .ok (appendAudit st1 (textEditEntry day newText admin))

/-! ## Public calendar projection — GET /api/calendar -/

/-- The `PublicCalendarDay` shape returned to unauthenticated callers. -/
structure PublicCalendarDay where
  id : Nat
  date : Nat
  status : DayStatus
  dedicationText : Option String
  holdExpiresAt : Option Nat
  deriving DecidableEq

/-- The per-day projection of GET /api/calendar: dedication text exposed
only when SOLD, hold expiry only while CHECKOUT_HOLD, nothing else. -/
def toPublicDay (d : CalendarDay) : PublicCalendarDay :=
  { id := d.id
    date := d.date
    status := d.status
    dedicationText := if d.status == .SOLD then d.dedicationText else none
    holdExpiresAt := if d.status == .CHECKOUT_HOLD then d.holdExpiresAt else none }

/-- GET /api/calendar: expire stale holds, then project every day. -/
def publicCalendar (st : Ledger) (now : Nat) : List PublicCalendarDay :=
  ((expireHolds st now).days).map toPublicDay

/-- Clearing exactly the buyer PII fields named by the spec (name, email,
phone, billing address, payment reference, hold token). -/
def scrubBuyerPII (d : CalendarDay) : CalendarDay :=
  { d with buyerFirstName := none, buyerLastName := none, buyerEmail := none,
           buyerPhone := none, billingAddress := none,
           stripePaymentIntentId := none, holdToken := none }

/-! ## Operation alphabet for whole-history statements -/

/-- One valid operation of the reservation core, with its inputs (and, for
the refund, the gateway response it observed). -/
inductive Op
  | createHold (date now token : Nat) (ip : String)
  | releaseHold (date token : Nat)
  | expireHolds (now : Nat)
  | createAdminHold (date : Nat) (note : Option String) (admin : String)
  | releaseAdminHold (date : Nat) (admin : String)
  | createPaymentIntent (date token now piId : Nat) (b : BuyerInfo)
  | paymentSucceeded (pi : PaymentIntent) (paidAt year : Nat)
  | paymentFailed (pi : PaymentIntent)
  | chargeRefunded (c : Charge)
  | adminRefund (date : Nat) (restoreDate : Bool) (reason admin today : String)
      (gateway : Option StripeRefund)
  | editDedication (date : Nat) (text admin : String) (emojisAllowed : Bool)

/-- Apply one operation to the ledger; a failed operation leaves the
ledger unchanged (the transaction rolled back). -/
def applyOp (st : Ledger) : Op → Ledger
  | .createHold date now token ip =>
    match createHold st date now token ip with
    | .ok (st1, _, _) => st1
    | .error _ => st
  | .releaseHold date token => releaseHold st date token
  | .expireHolds now => expireHolds st now
  | .createAdminHold date note admin =>
    match createAdminHold st date note admin with
    | .ok st1 => st1
    | .error _ => st
  | .releaseAdminHold date admin =>
    match releaseAdminHold st date admin with
    | .ok st1 => st1
    | .error _ => st
  | .createPaymentIntent date token now piId b =>
    match createPaymentIntent st date token now piId b with
    | .ok st1 => st1
    | .error _ => st
  | .paymentSucceeded pi paidAt year => (handlePaymentSucceeded st pi paidAt year).1
  | .paymentFailed pi => handlePaymentFailed st pi
  | .chargeRefunded c => handleChargeRefunded st c
  | .adminRefund date restoreDate reason admin today gateway =>
    (adminRefund st date restoreDate reason admin today gateway).ledger
  | .editDedication date text admin emojisAllowed =>
    match editDedicationText st date text admin emojisAllowed with
    | .ok st1 => st1
    | .error _ => st

/-- Run a whole operation history. -/
def applyOps (st : Ledger) (ops : List Op) : Ledger :=
  ops.foldl applyOp st

/-! ## Helper lemmas about lookups and row updates -/

/-- Generic: a `find?` over a mapped list agrees with a `find?` over the
original list when the predicate composed with the map agrees pointwise
with another predicate on the members. -/
theorem find?_map_congr {α : Type} {f : α → α} {p q : α → Bool} :
    ∀ {l : List α}, (∀ a ∈ l, p (f a) = q a) →
      (l.map f).find? p = (l.find? q).map f := by
  intro l
  induction l with
  | nil => intro _; rfl
  | cons a l ih =>
    intro h
    have ha := h a (List.mem_cons_self a l)
    cases hq : q a with
    | true =>
      simp only [List.map_cons]
      rw [List.find?_cons_of_pos _ (by rw [ha, hq]), List.find?_cons_of_pos _ hq]
      rfl
    | false =>
      simp only [List.map_cons]
      rw [List.find?_cons_of_neg _ (by simp [ha, hq]), List.find?_cons_of_neg _ (by simp [hq])]
      exact ih (fun b hb => h b (List.mem_cons_of_mem a hb))

/-- Row updates keep the column of `id` values unchanged. -/
theorem ids_updateDay (st : Ledger) (i : Nat) (g : CalendarDay → CalendarDay)
    (hg : ∀ d, (g d).id = d.id) :
    (updateDay st i g).days.map CalendarDay.id = st.days.map CalendarDay.id := by
  unfold updateDay
  simp only [List.map_map]
  refine List.map_congr_left (fun d _ => ?_)
  by_cases h : d.id = i <;> simp [h, hg]

/-- A member of the table found by `find?` is uniquely determined by its
`id` when the `id` column has no duplicates. -/
theorem eq_of_mem_of_same_id {st : Ledger} {d day : CalendarDay}
    (hids : (st.days.map CalendarDay.id).Nodup)
    (hd : d ∈ st.days) (hday : day ∈ st.days) (h : d.id = day.id) : d = day :=
  List.inj_on_of_nodup_map hids hd hday h

/-- Looking a day up by date after an id-targeted row update: the update
function does not change dates, so the lookup finds the (possibly
rewritten) row found before. -/
theorem findByDate_updateDay (st : Ledger) (i : Nat) (g : CalendarDay → CalendarDay)
    (date : Nat) (hg : ∀ d, (g d).date = d.date) :
    findByDate (updateDay st i g) date =
      (findByDate st date).map (fun d => if d.id == i then g d else d) := by
  unfold findByDate updateDay
  exact find?_map_congr (fun d _ => by
    by_cases h : d.id = i <;> simp [h, hg])

/-- Looking a day up by id after an id-targeted row update. -/
theorem findById_updateDay (st : Ledger) (i : Nat) (g : CalendarDay → CalendarDay)
    (j : Nat) (hg : ∀ d, (g d).id = d.id) :
    findById (updateDay st i g) j =
      (findById st j).map (fun d => if d.id == i then g d else d) := by
  unfold findById updateDay
  exact find?_map_congr (fun d _ => by
    by_cases h : d.id = i <;> simp [h, hg])

/-- Lookups ignore the audit table. -/
theorem findByDate_appendAudit (st : Ledger) (e : AuditEntry) (date : Nat) :
    findByDate (appendAudit st e) date = findByDate st date := rfl

/-- Lookups by id ignore the audit table. -/
theorem findById_appendAudit (st : Ledger) (e : AuditEntry) (j : Nat) :
    findById (appendAudit st e) j = findById st j := rfl

/-- The row returned by `findByDate` belongs to the table and matches. -/
theorem findByDate_mem {st : Ledger} {date : Nat} {day : CalendarDay}
    (h : findByDate st date = some day) : day ∈ st.days ∧ day.date = date := by
  refine ⟨List.mem_of_find?_eq_some h, ?_⟩
  have := List.find?_some h
  simpa using this

/-- The row returned by `findById` belongs to the table and matches. -/
theorem findById_mem {st : Ledger} {i : Nat} {day : CalendarDay}
    (h : findById st i = some day) : day ∈ st.days ∧ day.id = i := by
  refine ⟨List.mem_of_find?_eq_some h, ?_⟩
  have := List.find?_some h
  simpa using this

/-- The row returned by `findByPI` belongs to the table and matches. -/
theorem findByPI_mem {st : Ledger} {piId : Nat} {day : CalendarDay}
    (h : findByPI st piId = some day) :
    day ∈ st.days ∧ day.stripePaymentIntentId = some piId := by
  refine ⟨List.mem_of_find?_eq_some h, ?_⟩
  have := List.find?_some h
  simpa using this

/-! ## Claim theorems -/

/-- C10: for every payment-succeeded event whose metadata lacks
`calendarDayId` or `date`, the handler performs no state change and appends
no audit entry, and the webhook endpoint still acknowledges the event with
HTTP 200, so the gateway never retries that delivery. -/
theorem spec_c10 (st : Ledger) (pi : PaymentIntent) (paidAt year : Nat)
    (h : pi.metadata.calendarDayId = none ∨ pi.metadata.date = none) :
    webhookPost st (.paymentIntentSucceeded pi) paidAt year = (st, 200) := by
  rcases h with h | h
  · simp [webhookPost, handlePaymentSucceeded, h]
  · cases hc : pi.metadata.calendarDayId with
    | none => simp [webhookPost, handlePaymentSucceeded, hc]
    | some i => simp [webhookPost, handlePaymentSucceeded, hc, h]

/-- Witness for C10 at a concrete event with empty metadata. -/
theorem spec_c10_witness :
    webhookPost { days := [], audit := [] }
      (.paymentIntentSucceeded { id := 1, amount := 10000 }) 0 2027 =
      ({ days := [], audit := [] }, 200) :=
  spec_c10 { days := [], audit := [] } { id := 1, amount := 10000 } 0 2027
    (Or.inl rfl)

/-- C7: processing a charge-refunded event never changes any resource row;
it appends exactly one audit entry when a day with the payment reference
exists, and otherwise leaves the ledger entirely unchanged. -/
theorem spec_c7 (st : Ledger) (charge : Charge) :
    (handleChargeRefunded st charge).days = st.days ∧
    (match charge.paymentIntent with
     | none => handleChargeRefunded st charge = st
     | some piId =>
       match findByPI st piId with
       | some day => (handleChargeRefunded st charge).audit
           = st.audit ++ [chargeRefundedEntry day piId]
       | none => handleChargeRefunded st charge = st) := by
  unfold handleChargeRefunded
  cases hpi : charge.paymentIntent with
  | none => exact ⟨rfl, rfl⟩
  | some piId =>
    cases hf : findByPI st piId with
    | none => simp [hf]
    | some day => simp [hf, appendAudit]

/-- C9: the public calendar projection exposes dedication text only for
SOLD days and hold expiry only for CHECKOUT_HOLD days, and its output is
unchanged when every buyer PII field (name, email, phone, billing address,
payment reference, hold token) is scrubbed from the table first — so no
buyer PII influences, or appears in, the public output. -/
theorem spec_c9 :
    (∀ d : CalendarDay, ((toPublicDay d).dedicationText).isSome →
       d.status = .SOLD) ∧
    (∀ d : CalendarDay, ((toPublicDay d).holdExpiresAt).isSome →
       d.status = .CHECKOUT_HOLD) ∧
    (∀ (st : Ledger) (now : Nat),
       publicCalendar { days := st.days.map scrubBuyerPII, audit := st.audit } now
         = publicCalendar st now) := by
  refine ⟨?_, ?_, ?_⟩
  · intro d h
    by_cases hs : d.status = .SOLD
    · exact hs
    · exfalso
      simp [toPublicDay, hs] at h
  · intro d h
    by_cases hs : d.status = .CHECKOUT_HOLD
    · exact hs
    · exfalso
      simp [toPublicDay, hs] at h
  · intro st now
    unfold publicCalendar expireHolds
    simp only [List.map_map]
    refine List.map_congr_left (fun d _ => ?_)
    have hscrub : isExpiredHold now (scrubBuyerPII d) = isExpiredHold now d := rfl
    by_cases hx : isExpiredHold now d = true
    · simp only [Function.comp_apply, hscrub, hx, if_pos]
      rfl
    · simp only [Function.comp_apply, hscrub, hx, if_neg, if_false]
      simp only [Bool.not_eq_true] at hx
      simp only [hscrub, hx, Bool.false_eq_true, if_false]
      rfl

/-- A concrete sold day used to instantiate C9. -/
def c9SoldDay : CalendarDay :=
  { id := 1, date := 1, status := .SOLD, dedicationText := some "In memory",
    orderId := some "ACF-2027-00001", paidAt := some 5 }

/-- Witness for C9: the first conjunct applied to a concrete sold day. -/
theorem spec_c9_witness : c9SoldDay.status = DayStatus.SOLD :=
  spec_c9.1 c9SoldDay (by decide)

/-- C8: once `expireHolds` has run at time `tp`, no day whose hold expiry
was earlier than `tp` remains CHECKOUT_HOLD — any day still CHECKOUT_HOLD
has an unexpired hold, every previously expired hold is observed as
AVAILABLE — and exactly one hold-expired audit entry is appended per
reverted hold. -/
theorem spec_c8 (st : Ledger) (tp : Nat) :
    (∀ d ∈ (expireHolds st tp).days, d.status = .CHECKOUT_HOLD →
       ∀ e, d.holdExpiresAt = some e → tp ≤ e) ∧
    (∀ d ∈ st.days, isExpiredHold tp d = true →
       clearHoldFields d ∈ (expireHolds st tp).days ∧
       (clearHoldFields d).status = .AVAILABLE) ∧
    ((expireHolds st tp).audit
       = st.audit ++ (st.days.filter (isExpiredHold tp)).map holdExpiredEntry) ∧
    (∀ d : CalendarDay,
       (holdExpiredEntry d).action = AUDIT_ACTIONS.CHECKOUT_HOLD_EXPIRED ∧
       (holdExpiredEntry d).oldValue.status = some .CHECKOUT_HOLD ∧
       (holdExpiredEntry d).newValue.status = some .AVAILABLE) := by
  refine ⟨?_, ?_, rfl, fun d => ⟨rfl, rfl, rfl⟩⟩
  · intro d hd hch e he
    obtain ⟨d0, hd0, rfl⟩ := List.mem_map.1 hd
    by_cases hx : isExpiredHold tp d0 = true
    · rw [if_pos hx] at hch he
      simp [clearHoldFields] at hch
    · rw [if_neg hx] at hch he
      refine Nat.le_of_not_lt (fun hlt => hx ?_)
      simp [isExpiredHold, holdExpired, hch, he, hlt]
  · intro d hd hx
    refine ⟨?_, rfl⟩
    have : clearHoldFields d =
        (if isExpiredHold tp d = true then clearHoldFields d else d) := by
      rw [if_pos hx]
    rw [this]
    exact List.mem_map_of_mem _ hd

/-- A concrete expired hold (expiry 10, read at time 15). -/
def c8ExpiredDay : CalendarDay :=
  { id := 1, date := 1, status := .CHECKOUT_HOLD, holdToken := some 7,
    holdExpiresAt := some 10 }

/-- A concrete live hold (expiry 20, read at time 15). -/
def c8LiveDay : CalendarDay :=
  { id := 2, date := 2, status := .CHECKOUT_HOLD, holdToken := some 8,
    holdExpiresAt := some 20 }

/-- A concrete table holding both C8 test days. -/
def c8Ledger : Ledger := { days := [c8ExpiredDay, c8LiveDay], audit := [] }

/-- Witness for C8: in the concrete table, the surviving CHECKOUT_HOLD day
has an unexpired hold. -/
theorem spec_c8_witness : (15 : Nat) ≤ 20 :=
  (spec_c8 c8Ledger 15).1 c8LiveDay (by decide) rfl 20 rfl

/-! ## C1 — concurrent createHold calls -/

/-- A batch of `createHold` calls on the same key at the same instant, in
the order the database row lock serialized them: each call sees the ledger
left by its predecessor (a failed call rolls back and leaves it
unchanged), and each caller receives its own result. -/
def runCreateHolds (st : Ledger) (date now : Nat) (ip : String) :
    List Nat → Ledger × List (Except HoldError (Nat × Nat))
  | [] => (st, [])
  | t :: ts =>
    match createHold st date now t ip with
    | .ok (st1, tok, exp) =>
      let r := runCreateHolds st1 date now ip ts
      (r.1, .ok (tok, exp) :: r.2)
    | .error e =>
      let r := runCreateHolds st date now ip ts
      (r.1, .error e :: r.2)

/-- Did the caller win the hold? -/
def isOkResult : Except HoldError (Nat × Nat) → Bool
  | .ok _ => true
  | .error _ => false

/-- Did the caller lose with a Conflict (HTTP 409)? -/
def isConflictResult : Except HoldError (Nat × Nat) → Bool
  | .error (.Conflict _) => true
  | _ => false

/-- On an AVAILABLE day, `createHold` succeeds and produces exactly the
held row plus one audit entry. -/
theorem createHold_available (st : Ledger) (date now token : Nat) (ip : String)
    (day : CalendarDay) (hfind : findByDate st date = some day)
    (hav : day.status = .AVAILABLE) :
    createHold st date now token ip =
      .ok (appendAudit
          (updateDay st day.id (holdWrite token (now + HOLD_DURATION_MS)))
          (holdCreatedEntry day (now + HOLD_DURATION_MS) ip),
        token, now + HOLD_DURATION_MS) := by
  unfold createHold
  rw [hfind]
  simp [hav]

/-- On an unexpired CHECKOUT_HOLD day, `createHold` fails with Conflict
and changes nothing. -/
theorem createHold_conflict (st : Ledger) (date now token : Nat) (ip : String)
    (day : CalendarDay) (hfind : findByDate st date = some day)
    (hch : day.status = .CHECKOUT_HOLD) (hexp : holdExpired day now = false) :
    createHold st date now token ip = .error (.Conflict .CHECKOUT_HOLD) := by
  unfold createHold
  rw [hfind]
  simp [hch, hexp]

/-- Every call of a batch that starts at an unexpired CHECKOUT_HOLD day
fails with Conflict and the ledger never moves. -/
theorem runCreateHolds_conflicts (date now : Nat) (ip : String) (ts : List Nat)
    (st : Ledger) (day : CalendarDay)
    (hfind : findByDate st date = some day) (hch : day.status = .CHECKOUT_HOLD)
    (hexp : holdExpired day now = false) :
    runCreateHolds st date now ip ts =
      (st, ts.map (fun _ => .error (.Conflict .CHECKOUT_HOLD))) := by
  induction ts with
  | nil => rfl
  | cons t ts ih =>
    simp only [runCreateHolds,
      createHold_conflict st date now t ip day hfind hch hexp, ih, List.map_cons]

/-- C1: for an AVAILABLE key, among N simultaneous `createHold` calls, in
whatever order the row lock serializes them, exactly one succeeds and the
other N-1 fail with Conflict; afterwards the key carries exactly the
winning hold token, so no interleaving yields two valid hold tokens. -/
theorem spec_c1 (st : Ledger) (date now t1 : Nat) (ts : List Nat) (ip : String)
    (day : CalendarDay) (hfind : findByDate st date = some day)
    (hav : day.status = .AVAILABLE) :
    ((runCreateHolds st date now ip (t1 :: ts)).2.countP isOkResult = 1) ∧
    ((runCreateHolds st date now ip (t1 :: ts)).2.countP isConflictResult
       = ts.length) ∧
    (∃ day1, findByDate (runCreateHolds st date now ip (t1 :: ts)).1 date
         = some day1 ∧
       day1.status = .CHECKOUT_HOLD ∧ day1.holdToken = some t1 ∧
       day1.holdExpiresAt = some (now + HOLD_DURATION_MS)) := by
  have h1 := createHold_available st date now t1 ip day hfind hav
  have hfind1 : findByDate
      (appendAudit
        (updateDay st day.id (holdWrite t1 (now + HOLD_DURATION_MS)))
        (holdCreatedEntry day (now + HOLD_DURATION_MS) ip)) date =
      some (holdWrite t1 (now + HOLD_DURATION_MS) day) := by
    rw [findByDate_appendAudit,
      findByDate_updateDay st day.id (holdWrite t1 (now + HOLD_DURATION_MS))
        date (fun d => rfl), hfind]
    simp [holdWrite]
  have hrest := runCreateHolds_conflicts date now ip ts _ _ hfind1 rfl
    (by simp [holdWrite, holdExpired, HOLD_DURATION_MS])
  refine ⟨?_, ?_, ?_⟩
  · simp only [runCreateHolds, h1, hrest]
    simp [List.countP_cons, isOkResult, List.countP_map, Function.comp_def,
      List.countP_replicate]
  · simp only [runCreateHolds, h1, hrest]
    simp [List.countP_cons, isConflictResult, List.countP_map, Function.comp_def,
      List.countP_replicate]
  · refine ⟨holdWrite t1 (now + HOLD_DURATION_MS) day, ?_, rfl, rfl, rfl⟩
    simp only [runCreateHolds, h1, hrest]
    exact hfind1

/-- A concrete AVAILABLE day for the C1 witness. -/
def c1Day : CalendarDay := { id := 5, date := 500, status := .AVAILABLE }

/-- A concrete one-day ledger for the C1 witness. -/
def c1Ledger : Ledger := { days := [c1Day], audit := [] }

/-- Witness for C1: three racing calls on the concrete ledger — one
winner, two Conflicts. -/
theorem spec_c1_witness :
    ((runCreateHolds c1Ledger 500 100 "ip" [41, 42, 43]).2.countP isOkResult
      = 1) ∧
    ((runCreateHolds c1Ledger 500 100 "ip" [41, 42, 43]).2.countP
      isConflictResult = 2) := by
  have h := spec_c1 c1Ledger 500 100 41 [42, 43] "ip" c1Day rfl rfl
  exact ⟨h.1, h.2.1⟩

/-! ## C4 — idempotent payment success -/

/-- Lookups by payment intent ignore the audit table. -/
theorem findByPI_appendAudit (st : Ledger) (e : AuditEntry) (piId : Nat) :
    findByPI (appendAudit st e) piId = findByPI st piId := rfl

/-- C4: delivering the identical payment-succeeded event twice for a held
day yields exactly one transition to SOLD and exactly one PAYMENT_RECEIVED
audit entry; the second delivery leaves the ledger untouched and still
reports success. -/
theorem spec_c4 (st : Ledger) (pi : PaymentIntent)
    (paidAt1 paidAt2 year dayId : Nat) (day : CalendarDay)
    (hmd : pi.metadata.calendarDayId = some dayId)
    (hdt : ∃ dt, pi.metadata.date = some dt)
    (hfind : findById st dayId = some day)
    (hch : day.status = .CHECKOUT_HOLD)
    (hpi : ∀ d ∈ st.days, d.stripePaymentIntentId = some pi.id → d = day)
    (hids : (st.days.map CalendarDay.id).Nodup) :
    (handlePaymentSucceeded st pi paidAt1 year).2 = .ok () ∧
    (handlePaymentSucceeded st pi paidAt1 year).1.audit =
      st.audit ++
        [paymentReceivedEntry day (generateOrderId st year) pi.amount pi.id] ∧
    findById (handlePaymentSucceeded st pi paidAt1 year).1 dayId =
      some (soldWrite pi (generateOrderId st year) paidAt1 day) ∧
    (soldWrite pi (generateOrderId st year) paidAt1 day).status = .SOLD ∧
    handlePaymentSucceeded (handlePaymentSucceeded st pi paidAt1 year).1 pi
        paidAt2 year =
      ((handlePaymentSucceeded st pi paidAt1 year).1, .ok ()) := by
  obtain ⟨dt, hdt⟩ := hdt
  obtain ⟨hdaymem, hdayid⟩ := findById_mem hfind
  have hskip1 : (((findByPI st pi.id).map (fun d => d.status))
      == some DayStatus.SOLD) = false := by
    cases hex : findByPI st pi.id with
    | none => rfl
    | some x =>
      obtain ⟨hxmem, hxpi⟩ := findByPI_mem hex
      have hx : x = day := hpi x hxmem hxpi
      subst hx
      simp [hch]
  have heq1 : handlePaymentSucceeded st pi paidAt1 year =
      (appendAudit
        (updateDay st day.id (soldWrite pi (generateOrderId st year) paidAt1))
        (paymentReceivedEntry day (generateOrderId st year) pi.amount pi.id),
       .ok ()) := by
    unfold handlePaymentSucceeded
    rw [hmd, hdt]
    simp only [hskip1, Bool.false_eq_true, if_false, hfind]
    simp [hch, hdayid]
  have hfind2 : findByPI
      (appendAudit
        (updateDay st day.id (soldWrite pi (generateOrderId st year) paidAt1))
        (paymentReceivedEntry day (generateOrderId st year) pi.amount pi.id))
      pi.id =
      some (soldWrite pi (generateOrderId st year) paidAt1 day) := by
    rw [findByPI_appendAudit]
    unfold findByPI updateDay
    rw [find?_map_congr (q := fun d => d.id == day.id) ?_]
    · have : List.find? (fun d => d.id == day.id) st.days = some day := by
        have := hfind
        unfold findById at this
        rw [hdayid]
        exact this
      rw [this]
      simp
    · intro d hd
      by_cases hdid : d.id = day.id
      · have : d = day := eq_of_mem_of_same_id hids hd hdaymem hdid
        subst this
        simp [soldWrite]
      · have hb : (d.id == day.id) = false := by simp [hdid]
        simp only [hb, Bool.false_eq_true, if_false]
        refine Bool.eq_false_iff.2 (fun hc => hdid ?_)
        have : d.stripePaymentIntentId = some pi.id := by simpa using hc
        rw [hpi d hd this]
  have h2 : handlePaymentSucceeded
      (appendAudit
        (updateDay st day.id (soldWrite pi (generateOrderId st year) paidAt1))
        (paymentReceivedEntry day (generateOrderId st year) pi.amount pi.id))
      pi paidAt2 year =
      (appendAudit
        (updateDay st day.id (soldWrite pi (generateOrderId st year) paidAt1))
        (paymentReceivedEntry day (generateOrderId st year) pi.amount pi.id),
       .ok ()) := by
    unfold handlePaymentSucceeded
    rw [hmd, hdt]
    simp [hfind2, soldWrite]
  refine ⟨by rw [heq1], ?_, ?_, rfl, ?_⟩
  · rw [heq1]
    simp [appendAudit, updateDay]
  · rw [heq1]
    show findById (appendAudit _ _) dayId = _
    rw [findById_appendAudit,
      findById_updateDay st day.id
        (soldWrite pi (generateOrderId st year) paidAt1) dayId (fun d => rfl),
      hfind]
    simp
  · rw [heq1]
    exact h2

/-- A concrete held day awaiting payment, for the C4 witness. -/
def c4HeldDay : CalendarDay :=
  { id := 7, date := 700, status := .CHECKOUT_HOLD, holdToken := some 1,
    holdExpiresAt := some 99999, stripePaymentIntentId := some 300 }

/-- A concrete one-day ledger for the C4 witness. -/
def c4Ledger : Ledger := { days := [c4HeldDay], audit := [] }

/-- The concrete payment-succeeded event for the C4 witness. -/
def c4PI : PaymentIntent :=
  { id := 300, amount := 10000,
    metadata := { calendarDayId := some 7, date := some 700 } }

/-- Witness for C4: the concrete finalized day is SOLD. -/
theorem spec_c4_witness :
    (soldWrite c4PI (generateOrderId c4Ledger 2027) 111 c4HeldDay).status
      = DayStatus.SOLD :=
  (spec_c4 c4Ledger c4PI 111 222 2027 7 c4HeldDay rfl ⟨700, rfl⟩ rfl rfl
    (by decide) (by decide)).2.2.2.1

/-! ## C6 — refund preconditions and gateway failure -/

/-- C6: an admin refund on a day that is not SOLD or has no stored payment
reference always fails, appends no audit entry and makes zero gateway
calls; and when the gateway call throws or reports a status other than
succeeded or pending, no local state changes and the error is surfaced. -/
theorem spec_c6 (st : Ledger) (date : Nat) (restoreDate : Bool)
    (reason admin today : String) (gw : Option StripeRefund)
    (day : CalendarDay) (hfind : findByDate st date = some day) :
    ((day.status ≠ .SOLD ∨ day.stripePaymentIntentId = none) →
       (adminRefund st date restoreDate reason admin today gw).ledger = st ∧
       (adminRefund st date restoreDate reason admin today gw).gatewayCalls = 0 ∧
       ∃ e, (adminRefund st date restoreDate reason admin today gw).result
         = .error e) ∧
    (day.status = .SOLD → day.stripePaymentIntentId ≠ none → gw = none →
       (adminRefund st date restoreDate reason admin today gw).ledger = st ∧
       (adminRefund st date restoreDate reason admin today gw).result
         = .error .GatewayException) ∧
    (∀ r : StripeRefund, day.status = .SOLD →
       day.stripePaymentIntentId ≠ none → gw = some r →
       r.status ≠ .succeeded → r.status ≠ .pending →
       (adminRefund st date restoreDate reason admin today gw).ledger = st ∧
       (adminRefund st date restoreDate reason admin today gw).result
         = .error (.StripeFailed r.status)) := by
  refine ⟨?_, ?_, ?_⟩
  · intro h
    by_cases hs : day.status = .SOLD
    · rcases h with h | h
      · exact absurd hs h
      · unfold adminRefund
        rw [hfind]
        simp [hs, h]
    · unfold adminRefund
      rw [hfind]
      simp [hs]
  · intro hs hpi hgw
    unfold adminRefund
    rw [hfind]
    cases hp : day.stripePaymentIntentId with
    | none => exact absurd hp hpi
    | some p => simp [hs, hp, hgw]
  · intro r hs hpi hgw hr1 hr2
    unfold adminRefund
    rw [hfind]
    cases hp : day.stripePaymentIntentId with
    | none => exact absurd hp hpi
    | some p => simp [hs, hp, hgw, hr1, hr2]

/-- A concrete AVAILABLE (never sold) day for the C6 witness. -/
def c6Day : CalendarDay := { id := 9, date := 900, status := .AVAILABLE }

/-- A concrete one-day ledger for the C6 witness. -/
def c6Ledger : Ledger := { days := [c6Day], audit := [] }

/-- Witness for C6: refunding an unsold concrete day changes nothing and
makes no gateway call. -/
theorem spec_c6_witness :
    (adminRefund c6Ledger 900 true "r" "admin" "today" none).ledger
      = c6Ledger ∧
    (adminRefund c6Ledger 900 true "r" "admin" "today" none).gatewayCalls = 0 :=
  ⟨((spec_c6 c6Ledger 900 true "r" "admin" "today" none c6Day rfl).1
      (Or.inl (by decide))).1,
   ((spec_c6 c6Ledger 900 true "r" "admin" "today" none c6Day rfl).1
      (Or.inl (by decide))).2.1⟩

/-! ## C2 — order references repeat once a refund interleaves with sales -/

/-- Held day A (id 1) with payment intent 201, for the C2 history. -/
def c2DayA : CalendarDay :=
  { id := 1, date := 101, status := .CHECKOUT_HOLD, holdToken := some 11,
    holdExpiresAt := some 1000, stripePaymentIntentId := some 201 }

/-- Held day B (id 2) with payment intent 202, for the C2 history. -/
def c2DayB : CalendarDay :=
  { id := 2, date := 102, status := .CHECKOUT_HOLD, holdToken := some 12,
    holdExpiresAt := some 1000, stripePaymentIntentId := some 202 }

/-- Held day C (id 3) with payment intent 203, for the C2 history. -/
def c2DayC : CalendarDay :=
  { id := 3, date := 103, status := .CHECKOUT_HOLD, holdToken := some 13,
    holdExpiresAt := some 1000, stripePaymentIntentId := some 203 }

/-- Start of the C2 history: three held days, empty audit log. -/
def c2Start : Ledger := { days := [c2DayA, c2DayB, c2DayC], audit := [] }

/-- Payment-succeeded event for day A. -/
def c2PIA : PaymentIntent :=
  { id := 201, amount := 10000,
    metadata := { calendarDayId := some 1, date := some 101 } }

/-- Payment-succeeded event for day B. -/
def c2PIB : PaymentIntent :=
  { id := 202, amount := 10000,
    metadata := { calendarDayId := some 2, date := some 102 } }

/-- Payment-succeeded event for day C. -/
def c2PIC : PaymentIntent :=
  { id := 203, amount := 10000,
    metadata := { calendarDayId := some 3, date := some 103 } }

/-- The C2 history: sell A (order 00001), sell B (order 00002), refund A
to ADMIN_HOLD (gateway succeeded), then sell C.  The refund leaves the
orderId on day A but moves it out of SOLD, so `generateOrderId` counts
only one prior sale when C is finalized. -/
def c2History : List Op :=
  [ .paymentSucceeded c2PIA 500 2027,
    .paymentSucceeded c2PIB 600 2027,
    .adminRefund 101 false "chargeback" "admin" "2027-06-01"
      (some { id := 900, status := .succeeded }),
    .paymentSucceeded c2PIC 700 2027 ]

/-- The ledger after the C2 history. -/
def c2Final : Ledger := applyOps c2Start c2History

/-- C2 fails on the code: after the history above, the two distinct
successful finalizations of days B (id 2) and C (id 3) carry the same
order reference ACF-2027-00002 — an order reference repeats. -/
theorem spec_c2_dup :
    (findById c2Final 2).map (fun d => (d.status, d.orderId))
      = some (.SOLD, some "ACF-2027-00002") ∧
    (findById c2Final 3).map (fun d => (d.status, d.orderId))
      = some (.SOLD, some "ACF-2027-00002") := by
  constructor <;> rfl

/-! ## Inversion lemmas for the operations -/

/-- A successful `createHold` decomposes into the found row, the hold
write and one audit append. -/
theorem createHold_ok_inv {st : Ledger} {date now token : Nat} {ip : String}
    {st1 : Ledger} {tok exp : Nat}
    (h : createHold st date now token ip = .ok (st1, tok, exp)) :
    ∃ day, findByDate st date = some day ∧ tok = token ∧
      exp = now + HOLD_DURATION_MS ∧
      st1 = appendAudit
        (updateDay st day.id (holdWrite token (now + HOLD_DURATION_MS)))
        (holdCreatedEntry day (now + HOLD_DURATION_MS) ip) := by
  cases hfind : findByDate st date with
  | none => simp [createHold, hfind] at h
  | some day =>
    by_cases hc : (day.status == DayStatus.AVAILABLE ||
        (day.status == DayStatus.CHECKOUT_HOLD && holdExpired day now)) = true
    · have hA : createHold st date now token ip =
          .ok (appendAudit
            (updateDay st day.id (holdWrite token (now + HOLD_DURATION_MS)))
            (holdCreatedEntry day (now + HOLD_DURATION_MS) ip),
            token, now + HOLD_DURATION_MS) := by
        simp [createHold, hfind, hc]
      rw [hA] at h
      simp only [Except.ok.injEq, Prod.mk.injEq] at h
      exact ⟨day, rfl, h.2.1.symm, h.2.2.symm, h.1.symm⟩
    · simp [createHold, hfind, hc] at h

/-- A successful `createAdminHold` decomposes into the found row, the
admin-hold write and one audit append. -/
theorem createAdminHold_ok_inv {st : Ledger} {date : Nat}
    {note : Option String} {admin : String} {st1 : Ledger}
    (h : createAdminHold st date note admin = .ok st1) :
    ∃ day, findByDate st date = some day ∧
      day.status ≠ .SOLD ∧ day.status ≠ .ADMIN_HOLD ∧
      st1 = appendAudit (updateDay st day.id (adminHoldWrite note))
        (adminHoldCreatedEntry day note admin) := by
  unfold createAdminHold at h
  split at h
  · exact absurd h (by simp)
  · rename_i day hfind
    split at h
    · exact absurd h (by simp)
    · rename_i hsold
      split at h
      · exact absurd h (by simp)
      · rename_i hheld
        refine ⟨day, hfind, by simpa using hsold, by simpa using hheld, ?_⟩
        simpa using h.symm

/-- A successful `releaseAdminHold` decomposes into the found ADMIN_HOLD
row, the release write and one audit append. -/
theorem releaseAdminHold_ok_inv {st : Ledger} {date : Nat} {admin : String}
    {st1 : Ledger} (h : releaseAdminHold st date admin = .ok st1) :
    ∃ day, findByDate st date = some day ∧ day.status = .ADMIN_HOLD ∧
      st1 = appendAudit (updateDay st day.id adminReleaseWrite)
        (adminHoldReleasedEntry day admin) := by
  unfold releaseAdminHold at h
  split at h
  · exact absurd h (by simp)
  · rename_i day hfind
    split at h
    · rename_i hheld
      refine ⟨day, hfind, by simpa using hheld, ?_⟩
      simpa using h.symm
    · exact absurd h (by simp)

/-- A successful `createPaymentIntent` decomposes into the found
CHECKOUT_HOLD row and the buyer/payment-intent write (no audit entry). -/
theorem createPaymentIntent_ok_inv {st : Ledger} {date token now piId : Nat}
    {b : BuyerInfo} {st1 : Ledger}
    (h : createPaymentIntent st date token now piId b = .ok st1) :
    ∃ day, findByDate st date = some day ∧ day.status = .CHECKOUT_HOLD ∧
      st1 = updateDay st day.id (piWrite piId b) := by
  unfold createPaymentIntent at h
  split at h
  · exact absurd h (by simp)
  · rename_i day hfind
    split at h
    · exact absurd h (by simp)
    · rename_i hch
      split at h
      · exact absurd h (by simp)
      · split at h
        · exact absurd h (by simp)
        · refine ⟨day, hfind, ?_, by simpa using h.symm⟩
          have := hch
          simp only [bne_iff_ne, ne_eq, not_not] at this
          exact this

/-- A successful `editDedicationText` decomposes into the found SOLD row,
the text write and one audit append carrying only the text snapshots. -/
theorem editDedicationText_ok_inv {st : Ledger} {date : Nat}
    {text admin : String} {emojisAllowed : Bool} {st1 : Ledger}
    (h : editDedicationText st date text admin emojisAllowed = .ok st1) :
    ∃ day, findByDate st date = some day ∧ day.status = .SOLD ∧
      st1 = appendAudit (updateDay st day.id (textWrite (editNewText text)))
        (textEditEntry day (editNewText text) admin) := by
  unfold editDedicationText at h
  split at h
  · exact absurd h (by simp)
  · split at h
    · exact absurd h (by simp)
    · rename_i day hfind
      split at h
      · exact absurd h (by simp)
      · rename_i hsold
        refine ⟨day, hfind, ?_, by simpa using h.symm⟩
        have := hsold
        simp only [bne_iff_ne, ne_eq, not_not] at this
        exact this

/-- A successful admin refund decomposes into the found SOLD row with a
payment reference, a good gateway response, the refund write and one audit
append. -/
theorem adminRefund_ok_inv {st : Ledger} {date : Nat} {restoreDate : Bool}
    {reason admin today : String} {gw : Option StripeRefund}
    {rid : Nat} {s1 : DayStatus}
    (h : (adminRefund st date restoreDate reason admin today gw).result
       = .ok (rid, s1)) :
    ∃ day r, findByDate st date = some day ∧ day.status = .SOLD ∧
      day.stripePaymentIntentId.isSome ∧ gw = some r ∧ rid = r.id ∧
      s1 = (if restoreDate then .AVAILABLE else .ADMIN_HOLD) ∧
      (adminRefund st date restoreDate reason admin today gw).ledger =
        appendAudit (updateDay st day.id (refundWrite restoreDate today reason))
          (refundIssuedEntry day (if restoreDate then .AVAILABLE else .ADMIN_HOLD)
            r.id restoreDate reason admin) := by
  cases hfind : findByDate st date with
  | none => simp [adminRefund, hfind] at h
  | some day =>
    by_cases hsold : (day.status != DayStatus.SOLD) = true
    · simp [adminRefund, hfind, hsold] at h
    · cases hp : day.stripePaymentIntentId with
      | none => simp [adminRefund, hfind, hsold, hp] at h
      | some p =>
        cases hgw : gw with
        | none => simp [adminRefund, hfind, hsold, hp, hgw] at h
        | some r =>
          by_cases hrs : (r.status != RefundStatus.succeeded &&
              r.status != RefundStatus.pending) = true
          · simp [adminRefund, hfind, hsold, hp, hgw, hrs] at h
          · have hA : adminRefund st date restoreDate reason admin today gw =
                ⟨appendAudit
                  (updateDay st day.id (refundWrite restoreDate today reason))
                  (refundIssuedEntry day
                    (if restoreDate then .AVAILABLE else .ADMIN_HOLD)
                    r.id restoreDate reason admin),
                 .ok (r.id, if restoreDate then .AVAILABLE else .ADMIN_HOLD),
                 1⟩ := by
              simp [adminRefund, hfind, hsold, hp, hgw, hrs]
            rw [hA] at h
            simp only [Except.ok.injEq, Prod.mk.injEq] at h
            refine ⟨day, r, rfl, by simpa using hsold, by simp [hp], rfl,
              h.1.symm, h.2.symm, ?_⟩
            rw [hgw] at hA
            rw [hA]

/-- `releaseHold` either leaves the ledger unchanged or performs the
release write on the found matching row plus one audit append. -/
theorem releaseHold_cases (st : Ledger) (date token : Nat) :
    releaseHold st date token = st ∨
    ∃ day, findByDate st date = some day ∧ day.status = .CHECKOUT_HOLD ∧
      day.holdToken = some token ∧
      releaseHold st date token =
        appendAudit (updateDay st day.id clearHoldFields)
          (holdReleasedEntry day) := by
  unfold releaseHold
  cases hfind : findByDate st date with
  | none => exact Or.inl rfl
  | some day =>
    dsimp only
    by_cases hc : (day.status == DayStatus.CHECKOUT_HOLD &&
        day.holdToken == some token) = true
    · have hc2 := hc
      simp only [Bool.and_eq_true, beq_iff_eq] at hc2
      refine Or.inr ⟨day, rfl, hc2.1, hc2.2, ?_⟩
      rw [if_pos hc]
    · rw [if_neg hc]
      exact Or.inl rfl

/-- The payment-succeeded handler either leaves the ledger unchanged or
performs the sold write on the row named by the metadata plus one audit
append. -/
theorem handlePaymentSucceeded_cases (st : Ledger) (pi : PaymentIntent)
    (paidAt year : Nat) :
    (handlePaymentSucceeded st pi paidAt year).1 = st ∨
    ∃ dayId day, pi.metadata.calendarDayId = some dayId ∧
      findById st dayId = some day ∧
      (handlePaymentSucceeded st pi paidAt year).1 =
        appendAudit
          (updateDay st day.id (soldWrite pi (generateOrderId st year) paidAt))
          (paymentReceivedEntry day (generateOrderId st year) pi.amount pi.id) := by
  unfold handlePaymentSucceeded
  cases hmd : pi.metadata.calendarDayId with
  | none => exact Or.inl rfl
  | some dayId =>
    cases hdt : pi.metadata.date with
    | none => exact Or.inl rfl
    | some dt =>
      dsimp only
      by_cases hskip : ((Option.map (fun d => d.status) (findByPI st pi.id))
          == some DayStatus.SOLD) = true
      · rw [if_pos hskip]
        exact Or.inl rfl
      · rw [if_neg hskip]
        cases hfind : findById st dayId with
        | none => exact Or.inl rfl
        | some day =>
          dsimp only
          by_cases hmove : (day.status != DayStatus.CHECKOUT_HOLD &&
              day.stripePaymentIntentId != some pi.id) = true
          · rw [if_pos hmove]
            exact Or.inl rfl
          · rw [if_neg hmove]
            exact Or.inr ⟨dayId, day, rfl, hfind, rfl⟩

/-- The payment-failed handler either leaves the ledger unchanged or
reverts the held row named by the metadata plus one audit append. -/
theorem handlePaymentFailed_cases (st : Ledger) (pi : PaymentIntent) :
    handlePaymentFailed st pi = st ∨
    ∃ dayId day, pi.metadata.calendarDayId = some dayId ∧
      findById st dayId = some day ∧ day.status = .CHECKOUT_HOLD ∧
      handlePaymentFailed st pi =
        appendAudit (updateDay st day.id paymentFailWrite)
          (paymentFailedEntry day pi.id) := by
  unfold handlePaymentFailed
  cases hmd : pi.metadata.calendarDayId with
  | none => exact Or.inl rfl
  | some dayId =>
    dsimp only
    cases hfind : findById st dayId with
    | none => exact Or.inl rfl
    | some day =>
      dsimp only
      by_cases hch : (day.status == DayStatus.CHECKOUT_HOLD) = true
      · rw [if_pos hch]
        exact Or.inr ⟨dayId, day, rfl, hfind, by simpa using hch, rfl⟩
      · rw [if_neg hch]
        exact Or.inl rfl

/-- The charge-refunded handler never touches the day table. -/
theorem handleChargeRefunded_days (st : Ledger) (charge : Charge) :
    (handleChargeRefunded st charge).days = st.days := by
  unfold handleChargeRefunded
  cases hpi : charge.paymentIntent with
  | none => rfl
  | some piId =>
    dsimp only
    cases hf : findByPI st piId with
    | none => rfl
    | some day => rfl

/-! ## C3 — the nullable-field invariants over whole histories -/

/-- The field invariant exactly as the spec states it: hold token and
expiry non-null iff CHECKOUT_HOLD, order reference and paid-at non-null
iff SOLD. -/
def dayFieldInvariant (d : CalendarDay) : Prop :=
  (d.status = .CHECKOUT_HOLD ↔ d.holdToken.isSome) ∧
  (d.status = .CHECKOUT_HOLD ↔ d.holdExpiresAt.isSome) ∧
  (d.status = .SOLD ↔ d.orderId.isSome) ∧
  (d.status = .SOLD ↔ d.paidAt.isSome)

instance (d : CalendarDay) : Decidable (dayFieldInvariant d) := by
  unfold dayFieldInvariant
  infer_instance

/-- The spec invariant over a whole ledger. -/
def ledgerFieldInvariant (st : Ledger) : Prop :=
  ∀ d ∈ st.days, dayFieldInvariant d

instance (st : Ledger) : Decidable (ledgerFieldInvariant st) := by
  unfold ledgerFieldInvariant
  infer_instance

/-- Claim C3 as stated: any history of valid operations preserves the
full iff-invariant on every resource. -/
def claimC3 : Prop :=
  ∀ (st : Ledger) (ops : List Op), ledgerFieldInvariant st →
    ledgerFieldInvariant (applyOps st ops)

/-- A sold day with complete payment fields, satisfying the invariant. -/
def c3SoldDay : CalendarDay :=
  { id := 1, date := 101, status := .SOLD, stripePaymentIntentId := some 201,
    orderId := some "ACF-2027-00001", amountPaidCents := some 10000,
    paidAt := some 500 }

/-- A one-day ledger satisfying the invariant. -/
def c3Start : Ledger := { days := [c3SoldDay], audit := [] }

/-- One admin refund (gateway succeeded), keeping the day off-calendar. -/
def c3History : List Op :=
  [ .adminRefund 101 false "chargeback" "admin" "2027-06-01"
      (some { id := 900, status := .succeeded }) ]

/-- Counterexample to C3 as stated: the refund moves the day to ADMIN_HOLD
but keeps `orderId` and `paidAt` non-null ("keep buyer info for records"),
so the orderRef/paidAt-iff-SOLD invariant is violated. -/
theorem spec_c3_cex : ¬ claimC3 := fun h =>
  absurd (h c3Start c3History (by decide)) (by decide)

/-- Amended C3 invariant: hold token and expiry are non-null exactly in
CHECKOUT_HOLD, and every SOLD day has an order reference and a paid-at
timestamp (which a refund may then retain on the restored day). -/
def dayFieldInvariantA (d : CalendarDay) : Prop :=
  (d.status = .CHECKOUT_HOLD ↔ d.holdToken.isSome) ∧
  (d.status = .CHECKOUT_HOLD ↔ d.holdExpiresAt.isSome) ∧
  (d.status = .SOLD → d.orderId.isSome ∧ d.paidAt.isSome)

instance (d : CalendarDay) : Decidable (dayFieldInvariantA d) := by
  unfold dayFieldInvariantA
  infer_instance

/-- The hold write yields an invariant row. -/
theorem invA_holdWrite (t e : Nat) (d : CalendarDay) :
    dayFieldInvariantA (holdWrite t e d) := by
  simp [dayFieldInvariantA, holdWrite]

/-- Clearing a hold yields an invariant row. -/
theorem invA_clearHoldFields (d : CalendarDay) :
    dayFieldInvariantA (clearHoldFields d) := by
  simp [dayFieldInvariantA, clearHoldFields]

/-- The admin-hold write yields an invariant row. -/
theorem invA_adminHoldWrite (note : Option String) (d : CalendarDay) :
    dayFieldInvariantA (adminHoldWrite note d) := by
  simp [dayFieldInvariantA, adminHoldWrite]

/-- The sold write yields an invariant row. -/
theorem invA_soldWrite (pi : PaymentIntent) (orderId : String) (paidAt : Nat)
    (d : CalendarDay) : dayFieldInvariantA (soldWrite pi orderId paidAt d) := by
  simp [dayFieldInvariantA, soldWrite]

/-- The payment-failure write yields an invariant row. -/
theorem invA_paymentFailWrite (d : CalendarDay) :
    dayFieldInvariantA (paymentFailWrite d) := by
  simp [dayFieldInvariantA, paymentFailWrite]

/-- A row with cleared hold fields stays invariant under the admin-release
write. -/
theorem invA_adminReleaseWrite {d : CalendarDay} (h : dayFieldInvariantA d)
    (hs : d.status ≠ .CHECKOUT_HOLD) :
    dayFieldInvariantA (adminReleaseWrite d) := by
  obtain ⟨h1, h2, _⟩ := h
  have ht : d.holdToken.isSome = false := by
    cases hx : d.holdToken.isSome with
    | false => rfl
    | true => exact absurd (h1.2 hx) hs
  have he : d.holdExpiresAt.isSome = false := by
    cases hx : d.holdExpiresAt.isSome with
    | false => rfl
    | true => exact absurd (h2.2 hx) hs
  unfold adminReleaseWrite
  exact ⟨by simp [ht], by simp [he], by simp⟩

/-- A row with cleared hold fields stays invariant under the refund
write. -/
theorem invA_refundWrite {d : CalendarDay} (h : dayFieldInvariantA d)
    (hs : d.status ≠ .CHECKOUT_HOLD) (restoreDate : Bool)
    (today reason : String) :
    dayFieldInvariantA (refundWrite restoreDate today reason d) := by
  obtain ⟨h1, h2, _⟩ := h
  have ht : d.holdToken.isSome = false := by
    cases hx : d.holdToken.isSome with
    | false => rfl
    | true => exact absurd (h1.2 hx) hs
  have he : d.holdExpiresAt.isSome = false := by
    cases hx : d.holdExpiresAt.isSome with
    | false => rfl
    | true => exact absurd (h2.2 hx) hs
  unfold refundWrite
  cases restoreDate with
  | false => exact ⟨by simp [ht], by simp [he], by simp⟩
  | true => exact ⟨by simp [ht], by simp [he], by simp⟩

/-- The buyer/payment-intent write touches no invariant field. -/
theorem invA_piWrite {d : CalendarDay} (h : dayFieldInvariantA d)
    (piId : Nat) (b : BuyerInfo) : dayFieldInvariantA (piWrite piId b d) := h

/-- The dedication-text write touches no invariant field. -/
theorem invA_textWrite {d : CalendarDay} (h : dayFieldInvariantA d)
    (newText : Option String) : dayFieldInvariantA (textWrite newText d) := h

/-- Every row of an updated table is either an untouched old row or the
write applied to an old row with the targeted id. -/
theorem mem_updateDay {st : Ledger} {i : Nat} {g : CalendarDay → CalendarDay}
    {d : CalendarDay} (hd : d ∈ (updateDay st i g).days) :
    ∃ d0 ∈ st.days, d = if d0.id == i then g d0 else d0 := by
  obtain ⟨d0, hd0, rfl⟩ := List.mem_map.1 hd
  exact ⟨d0, hd0, rfl⟩

/-- Invariance under an update whose write preserves the invariant on
every row. -/
theorem invA_updateDay_of_pointwise {st : Ledger} {i : Nat}
    {g : CalendarDay → CalendarDay}
    (hg : ∀ d, dayFieldInvariantA d → dayFieldInvariantA (g d))
    (hinv : ∀ d ∈ st.days, dayFieldInvariantA d) :
    ∀ d ∈ (updateDay st i g).days, dayFieldInvariantA d := by
  intro d hd
  obtain ⟨d0, hd0, rfl⟩ := mem_updateDay hd
  by_cases h : (d0.id == i) = true
  · rw [if_pos h]
    exact hg d0 (hinv d0 hd0)
  · rw [if_neg h]
    exact hinv d0 hd0

/-- Invariance under an update targeted at one member row, given the
invariant for the written target; needs the id column free of
duplicates. -/
theorem invA_updateDay_of_target {st : Ledger} {day : CalendarDay}
    {g : CalendarDay → CalendarDay}
    (hids : (st.days.map CalendarDay.id).Nodup) (hmem : day ∈ st.days)
    (hday : dayFieldInvariantA (g day))
    (hinv : ∀ d ∈ st.days, dayFieldInvariantA d) :
    ∀ d ∈ (updateDay st day.id g).days, dayFieldInvariantA d := by
  intro d hd
  obtain ⟨d0, hd0, rfl⟩ := mem_updateDay hd
  by_cases h : (d0.id == day.id) = true
  · have : d0 = day := eq_of_mem_of_same_id hids hd0 hmem (by simpa using h)
    subst this
    rw [if_pos h]
    exact hday
  · rw [if_neg h]
    exact hinv d0 hd0

/-- The refund route either leaves the ledger unchanged (any failure) or
performs the refund write plus one audit append on the found SOLD row. -/
theorem adminRefund_ledger_cases (st : Ledger) (date : Nat)
    (restoreDate : Bool) (reason admin today : String)
    (gw : Option StripeRefund) :
    (adminRefund st date restoreDate reason admin today gw).ledger = st ∨
    ∃ day r, findByDate st date = some day ∧ day.status = .SOLD ∧
      gw = some r ∧
      (adminRefund st date restoreDate reason admin today gw).ledger =
        appendAudit (updateDay st day.id (refundWrite restoreDate today reason))
          (refundIssuedEntry day
            (if restoreDate then .AVAILABLE else .ADMIN_HOLD)
            r.id restoreDate reason admin) := by
  cases hfind : findByDate st date with
  | none => exact Or.inl (by simp [adminRefund, hfind])
  | some day =>
    by_cases hsold : (day.status != DayStatus.SOLD) = true
    · exact Or.inl (by simp [adminRefund, hfind, hsold])
    · cases hp : day.stripePaymentIntentId with
      | none => exact Or.inl (by simp [adminRefund, hfind, hsold, hp])
      | some p =>
        cases hgw : gw with
        | none => exact Or.inl (by simp [adminRefund, hfind, hsold, hp, hgw])
        | some r =>
          by_cases hrs : (r.status != RefundStatus.succeeded &&
              r.status != RefundStatus.pending) = true
          · exact Or.inl (by simp [adminRefund, hfind, hsold, hp, hgw, hrs])
          · refine Or.inr ⟨day, r, rfl, by simpa using hsold, rfl, ?_⟩
            simp [adminRefund, hfind, hsold, hp, hgw, hrs]

/-- Every operation leaves the id column of the day table unchanged. -/
theorem ids_applyOp (st : Ledger) (op : Op) :
    (applyOp st op).days.map CalendarDay.id = st.days.map CalendarDay.id := by
  cases op with
  | createHold date now token ip =>
    simp only [applyOp]
    cases hres : createHold st date now token ip with
    | error e => rfl
    | ok res =>
      obtain ⟨st1, tok, exp⟩ := res
      obtain ⟨day, hfind, _, _, hst1⟩ := createHold_ok_inv hres
      dsimp only
      rw [hst1]
      exact ids_updateDay st day.id _ (fun d => rfl)
  | releaseHold date token =>
    simp only [applyOp]
    rcases releaseHold_cases st date token with h | ⟨day, hfind, _, _, h⟩
    · rw [h]
    · rw [h]
      exact ids_updateDay st day.id _ (fun d => rfl)
  | expireHolds now =>
    simp only [applyOp]
    unfold expireHolds
    simp only [List.map_map]
    refine List.map_congr_left (fun d _ => ?_)
    by_cases h : isExpiredHold now d = true <;> simp [h, clearHoldFields]
  | createAdminHold date note admin =>
    simp only [applyOp]
    cases hres : createAdminHold st date note admin with
    | error e => rfl
    | ok st1 =>
      obtain ⟨day, hfind, _, _, hst1⟩ := createAdminHold_ok_inv hres
      dsimp only
      rw [hst1]
      exact ids_updateDay st day.id _ (fun d => rfl)
  | releaseAdminHold date admin =>
    simp only [applyOp]
    cases hres : releaseAdminHold st date admin with
    | error e => rfl
    | ok st1 =>
      obtain ⟨day, hfind, _, hst1⟩ := releaseAdminHold_ok_inv hres
      dsimp only
      rw [hst1]
      exact ids_updateDay st day.id _ (fun d => rfl)
  | createPaymentIntent date token now piId b =>
    simp only [applyOp]
    cases hres : createPaymentIntent st date token now piId b with
    | error e => rfl
    | ok st1 =>
      obtain ⟨day, hfind, _, hst1⟩ := createPaymentIntent_ok_inv hres
      dsimp only
      rw [hst1]
      exact ids_updateDay st day.id _ (fun d => rfl)
  | paymentSucceeded pi paidAt year =>
    simp only [applyOp]
    rcases handlePaymentSucceeded_cases st pi paidAt year with h | ⟨_, day, _, _, h⟩
    · rw [h]
    · rw [h]
      exact ids_updateDay st day.id _ (fun d => rfl)
  | paymentFailed pi =>
    simp only [applyOp]
    rcases handlePaymentFailed_cases st pi with h | ⟨_, day, _, _, _, h⟩
    · rw [h]
    · rw [h]
      exact ids_updateDay st day.id _ (fun d => rfl)
  | chargeRefunded c =>
    simp only [applyOp]
    rw [handleChargeRefunded_days]
  | adminRefund date restoreDate reason admin today gw =>
    simp only [applyOp]
    rcases adminRefund_ledger_cases st date restoreDate reason admin today gw
      with h | ⟨day, r, _, _, _, h⟩
    · rw [h]
    · rw [h]
      exact ids_updateDay st day.id _ (fun d => rfl)
  | editDedication date text admin emojisAllowed =>
    simp only [applyOp]
    cases hres : editDedicationText st date text admin emojisAllowed with
    | error e => rfl
    | ok st1 =>
      obtain ⟨day, hfind, _, hst1⟩ := editDedicationText_ok_inv hres
      dsimp only
      rw [hst1]
      exact ids_updateDay st day.id _ (fun d => rfl)

/-- One step of invariant preservation: every operation keeps the amended
field invariant on every row (given a duplicate-free id column). -/
theorem invA_applyOp (st : Ledger) (op : Op)
    (hids : (st.days.map CalendarDay.id).Nodup)
    (hinv : ∀ d ∈ st.days, dayFieldInvariantA d) :
    ∀ d ∈ (applyOp st op).days, dayFieldInvariantA d := by
  cases op with
  | createHold date now token ip =>
    simp only [applyOp]
    cases hres : createHold st date now token ip with
    | error e => exact hinv
    | ok res =>
      obtain ⟨st1, tok, exp⟩ := res
      obtain ⟨day, hfind, _, _, hst1⟩ := createHold_ok_inv hres
      dsimp only
      rw [hst1]
      exact invA_updateDay_of_pointwise (fun d _ => invA_holdWrite _ _ d) hinv
  | releaseHold date token =>
    simp only [applyOp]
    rcases releaseHold_cases st date token with h | ⟨day, hfind, _, _, h⟩
    · rw [h]
      exact hinv
    · rw [h]
      exact invA_updateDay_of_pointwise (fun d _ => invA_clearHoldFields d) hinv
  | expireHolds now =>
    intro d hd
    simp only [applyOp] at hd
    unfold expireHolds at hd
    obtain ⟨d0, hd0, rfl⟩ := List.mem_map.1 hd
    by_cases h : isExpiredHold now d0 = true
    · rw [if_pos h]
      exact invA_clearHoldFields d0
    · rw [if_neg h]
      exact hinv d0 hd0
  | createAdminHold date note admin =>
    simp only [applyOp]
    cases hres : createAdminHold st date note admin with
    | error e => exact hinv
    | ok st1 =>
      obtain ⟨day, hfind, _, _, hst1⟩ := createAdminHold_ok_inv hres
      dsimp only
      rw [hst1]
      exact invA_updateDay_of_pointwise (fun d _ => invA_adminHoldWrite note d) hinv
  | releaseAdminHold date admin =>
    simp only [applyOp]
    cases hres : releaseAdminHold st date admin with
    | error e => exact hinv
    | ok st1 =>
      obtain ⟨day, hfind, hheld, hst1⟩ := releaseAdminHold_ok_inv hres
      dsimp only
      rw [hst1]
      have hmem := (findByDate_mem hfind).1
      refine invA_updateDay_of_target hids hmem ?_ hinv
      exact invA_adminReleaseWrite (hinv day hmem) (by simp [hheld])
  | createPaymentIntent date token now piId b =>
    simp only [applyOp]
    cases hres : createPaymentIntent st date token now piId b with
    | error e => exact hinv
    | ok st1 =>
      obtain ⟨day, hfind, _, hst1⟩ := createPaymentIntent_ok_inv hres
      dsimp only
      rw [hst1]
      exact invA_updateDay_of_pointwise (fun d hd => invA_piWrite hd piId b) hinv
  | paymentSucceeded pi paidAt year =>
    simp only [applyOp]
    rcases handlePaymentSucceeded_cases st pi paidAt year with h | ⟨_, day, _, _, h⟩
    · rw [h]
      exact hinv
    · rw [h]
      exact invA_updateDay_of_pointwise (fun d _ => invA_soldWrite _ _ _ d) hinv
  | paymentFailed pi =>
    simp only [applyOp]
    rcases handlePaymentFailed_cases st pi with h | ⟨_, day, _, _, _, h⟩
    · rw [h]
      exact hinv
    · rw [h]
      exact invA_updateDay_of_pointwise (fun d _ => invA_paymentFailWrite d) hinv
  | chargeRefunded c =>
    intro d hd
    simp only [applyOp] at hd
    rw [handleChargeRefunded_days] at hd
    exact hinv d hd
  | adminRefund date restoreDate reason admin today gw =>
    simp only [applyOp]
    rcases adminRefund_ledger_cases st date restoreDate reason admin today gw
      with h | ⟨day, r, hfind, hsold, _, h⟩
    · rw [h]
      exact hinv
    · rw [h]
      have hmem := (findByDate_mem hfind).1
      refine invA_updateDay_of_target hids hmem ?_ hinv
      exact invA_refundWrite (hinv day hmem) (by simp [hsold]) restoreDate today reason
  | editDedication date text admin emojisAllowed =>
    simp only [applyOp]
    cases hres : editDedicationText st date text admin emojisAllowed with
    | error e => exact hinv
    | ok st1 =>
      obtain ⟨day, hfind, _, hst1⟩ := editDedicationText_ok_inv hres
      dsimp only
      rw [hst1]
      exact invA_updateDay_of_pointwise (fun d hd => invA_textWrite hd _) hinv

/-- Operation histories leave the id column unchanged. -/
theorem ids_applyOps (st : Ledger) (ops : List Op) :
    (applyOps st ops).days.map CalendarDay.id = st.days.map CalendarDay.id := by
  induction ops generalizing st with
  | nil => rfl
  | cons op ops ih =>
    show (applyOps (applyOp st op) ops).days.map _ = _
    rw [ih, ids_applyOp]

/-- C3 amended: after any sequence of valid operations from a table whose
id column has no duplicates, every resource satisfies: holdToken and
holdExpiresAt are non-null iff the state is CHECKOUT_HOLD, and every SOLD
resource carries an order reference and a paid-at timestamp.  (The
converse for orderRef/paidAt fails: an administrative refund deliberately
retains them on the restored day, see the counterexample.) -/
theorem spec_c3_amended (st : Ledger) (ops : List Op)
    (hids : (st.days.map CalendarDay.id).Nodup)
    (hinv : ∀ d ∈ st.days, dayFieldInvariantA d) :
    ∀ d ∈ (applyOps st ops).days, dayFieldInvariantA d := by
  induction ops generalizing st with
  | nil => exact hinv
  | cons op ops ih =>
    show ∀ d ∈ (applyOps (applyOp st op) ops).days, _
    refine ih (applyOp st op) ?_ (invA_applyOp st op hids hinv)
    rw [ids_applyOp]
    exact hids

/-- Witness for the amended C3: the concrete refund history keeps the
amended invariant on the refunded day. -/
theorem spec_c3_amended_witness :
    dayFieldInvariantA (refundWrite false "2027-06-01" "chargeback" c3SoldDay) :=
  spec_c3_amended c3Start c3History (by decide) (by decide)
    (refundWrite false "2027-06-01" "chargeback" c3SoldDay) (by decide)

/-! ## C5 — audit completeness -/

/-- The audit contract of one state-changing step: exactly the entry `e`
was appended, and its snapshots carry the pre- and post-operation
states. -/
def auditStep (st st1 : Ledger) (e : AuditEntry) (pre post : DayStatus) : Prop :=
  st1.audit = st.audit ++ [e] ∧ e.oldValue.status = some pre ∧
    e.newValue.status = some post

/-- Audit contract of `createHold`. -/
def c5CreateHold : Prop :=
  ∀ (st : Ledger) (date now token : Nat) (ip : String) (st1 : Ledger)
    (tok exp : Nat), createHold st date now token ip = .ok (st1, tok, exp) →
    ∃ day, findByDate st date = some day ∧
      auditStep st st1 (holdCreatedEntry day (now + HOLD_DURATION_MS) ip)
        day.status .CHECKOUT_HOLD

/-- Audit contract of `releaseHold`: a no-op appends nothing. -/
def c5ReleaseHold : Prop :=
  ∀ (st : Ledger) (date token : Nat),
    releaseHold st date token = st ∨
    ∃ day, findByDate st date = some day ∧
      auditStep st (releaseHold st date token) (holdReleasedEntry day)
        .CHECKOUT_HOLD .AVAILABLE

/-- Audit contract of `expireHolds`: one entry per reverted row. -/
def c5ExpireHolds : Prop :=
  ∀ (st : Ledger) (now : Nat),
    (expireHolds st now).audit =
      st.audit ++ (st.days.filter (isExpiredHold now)).map holdExpiredEntry ∧
    ∀ d : CalendarDay,
      (holdExpiredEntry d).oldValue.status = some .CHECKOUT_HOLD ∧
      (holdExpiredEntry d).newValue.status = some .AVAILABLE

/-- Audit contract of `createAdminHold`. -/
def c5CreateAdminHold : Prop :=
  ∀ (st : Ledger) (date : Nat) (note : Option String) (admin : String)
    (st1 : Ledger), createAdminHold st date note admin = .ok st1 →
    ∃ day, findByDate st date = some day ∧
      auditStep st st1 (adminHoldCreatedEntry day note admin)
        day.status .ADMIN_HOLD

/-- Audit contract of `releaseAdminHold`. -/
def c5ReleaseAdminHold : Prop :=
  ∀ (st : Ledger) (date : Nat) (admin : String) (st1 : Ledger),
    releaseAdminHold st date admin = .ok st1 →
    ∃ day, findByDate st date = some day ∧
      auditStep st st1 (adminHoldReleasedEntry day admin)
        .ADMIN_HOLD .AVAILABLE

/-- Audit contract of the payment-succeeded handler: skipped deliveries
append nothing, a finalization appends exactly one entry. -/
def c5PaymentSucceeded : Prop :=
  ∀ (st : Ledger) (pi : PaymentIntent) (paidAt year : Nat),
    (handlePaymentSucceeded st pi paidAt year).1 = st ∨
    ∃ dayId day, pi.metadata.calendarDayId = some dayId ∧
      findById st dayId = some day ∧
      auditStep st (handlePaymentSucceeded st pi paidAt year).1
        (paymentReceivedEntry day (generateOrderId st year) pi.amount pi.id)
        day.status .SOLD

/-- Audit contract of the payment-failed handler. -/
def c5PaymentFailed : Prop :=
  ∀ (st : Ledger) (pi : PaymentIntent),
    handlePaymentFailed st pi = st ∨
    ∃ dayId day, pi.metadata.calendarDayId = some dayId ∧
      findById st dayId = some day ∧
      auditStep st (handlePaymentFailed st pi) (paymentFailedEntry day pi.id)
        .CHECKOUT_HOLD .AVAILABLE

/-- Audit contract of the admin refund: failures append nothing, a
successful refund appends exactly one entry. -/
def c5Refund : Prop :=
  ∀ (st : Ledger) (date : Nat) (restoreDate : Bool)
    (reason admin today : String) (gw : Option StripeRefund),
    (adminRefund st date restoreDate reason admin today gw).ledger = st ∨
    ∃ day r, findByDate st date = some day ∧ gw = some r ∧
      auditStep st (adminRefund st date restoreDate reason admin today gw).ledger
        (refundIssuedEntry day
          (if restoreDate then .AVAILABLE else .ADMIN_HOLD)
          r.id restoreDate reason admin)
        .SOLD (if restoreDate then .AVAILABLE else .ADMIN_HOLD)

/-- Audit contract of `editDedicationText` as claim C5 states it: one
entry whose snapshots carry the pre- and post-operation state (both SOLD
for an edit). -/
def c5EditClaim : Prop :=
  ∀ (st : Ledger) (date : Nat) (text admin : String) (emojisAllowed : Bool)
    (st1 : Ledger),
    editDedicationText st date text admin emojisAllowed = .ok st1 →
    ∃ e, st1.audit = st.audit ++ [e] ∧ e.oldValue.status = some .SOLD ∧
      e.newValue.status = some .SOLD

/-- Audit contract of `editDedicationText` as the code implements it: one
entry whose snapshots carry only the old and new dedication text — no day
state at all. -/
def c5EditAmended : Prop :=
  ∀ (st : Ledger) (date : Nat) (text admin : String) (emojisAllowed : Bool)
    (st1 : Ledger),
    editDedicationText st date text admin emojisAllowed = .ok st1 →
    ∃ day, findByDate st date = some day ∧ day.status = .SOLD ∧
      st1.audit = st.audit ++ [textEditEntry day (editNewText text) admin] ∧
      (textEditEntry day (editNewText text) admin).oldValue.dedicationText
        = some day.dedicationText ∧
      (textEditEntry day (editNewText text) admin).newValue.dedicationText
        = some (editNewText text) ∧
      (textEditEntry day (editNewText text) admin).oldValue.status = none

/-- Claim C5 exactly as stated: every state-changing operation appends one
snapshot-carrying entry — including `editDedicationText` with state
snapshots. -/
def claimC5 : Prop :=
  c5CreateHold ∧ c5ReleaseHold ∧ c5ExpireHolds ∧ c5CreateAdminHold ∧
  c5ReleaseAdminHold ∧ c5PaymentSucceeded ∧ c5PaymentFailed ∧ c5Refund ∧
  c5EditClaim

/-- A concrete sold day with dedication text, for the C5 counterexample. -/
def c5SoldDay : CalendarDay :=
  { id := 4, date := 400, status := .SOLD, orderId := some "ACF-2027-00007",
    paidAt := some 50, stripePaymentIntentId := some 64,
    dedicationText := some "Old text" }

/-- A concrete one-day ledger for the C5 counterexample. -/
def c5Ledger : Ledger := { days := [c5SoldDay], audit := [] }

/-- The ledger after the concrete dedication edit. -/
def c5Edited : Ledger :=
  appendAudit (updateDay c5Ledger c5SoldDay.id (textWrite (editNewText "New text")))
    (textEditEntry c5SoldDay (editNewText "New text") "admin")

/-- Counterexample to C5 as stated: a successful dedication edit appends
its TEXT_EDIT entry with text-only snapshots, so `oldValue.state` is
absent rather than the pre-operation state SOLD. -/
theorem spec_c5_cex : ¬ claimC5 := by
  intro h
  have hres : editDedicationText c5Ledger 400 "New text" "admin" false
      = .ok c5Edited := rfl
  obtain ⟨e, heq, hold, _⟩ :=
    h.2.2.2.2.2.2.2.2 c5Ledger 400 "New text" "admin" false c5Edited hres
  have he : e = textEditEntry c5SoldDay (editNewText "New text") "admin" := by
    have := heq.symm
    simpa [c5Edited, appendAudit, updateDay, c5Ledger] using this
  rw [he] at hold
  exact absurd hold (by decide)

/-- C5 amended: every successful state-changing operation of the
reservation core appends exactly one audit entry in the same transaction,
with `oldValue.state` the pre-operation state and `newValue.state` the
post-operation state, and a failed operation appends none — except that
`editDedicationText` appends an entry recording only the old and new
dedication text, with no state snapshot. -/
theorem spec_c5_amended :
    c5CreateHold ∧ c5ReleaseHold ∧ c5ExpireHolds ∧ c5CreateAdminHold ∧
    c5ReleaseAdminHold ∧ c5PaymentSucceeded ∧ c5PaymentFailed ∧ c5Refund ∧
    c5EditAmended := by
  refine ⟨?_, ?_, ?_, ?_, ?_, ?_, ?_, ?_, ?_⟩
  · intro st date now token ip st1 tok exp h
    obtain ⟨day, hfind, _, _, hst1⟩ := createHold_ok_inv h
    exact ⟨day, hfind, by rw [hst1]; rfl, rfl, rfl⟩
  · intro st date token
    rcases releaseHold_cases st date token with h | ⟨day, hfind, _, _, h⟩
    · exact Or.inl h
    · exact Or.inr ⟨day, hfind, by rw [h]; rfl, rfl, rfl⟩
  · intro st now
    exact ⟨rfl, fun d => ⟨rfl, rfl⟩⟩
  · intro st date note admin st1 h
    obtain ⟨day, hfind, _, _, hst1⟩ := createAdminHold_ok_inv h
    exact ⟨day, hfind, by rw [hst1]; rfl, rfl, rfl⟩
  · intro st date admin st1 h
    obtain ⟨day, hfind, _, hst1⟩ := releaseAdminHold_ok_inv h
    exact ⟨day, hfind, by rw [hst1]; rfl, rfl, rfl⟩
  · intro st pi paidAt year
    rcases handlePaymentSucceeded_cases st pi paidAt year
      with h | ⟨dayId, day, hmd, hfind, h⟩
    · exact Or.inl h
    · exact Or.inr ⟨dayId, day, hmd, hfind, by rw [h]; rfl, rfl, rfl⟩
  · intro st pi
    rcases handlePaymentFailed_cases st pi with h | ⟨dayId, day, hmd, hfind, _, h⟩
    · exact Or.inl h
    · exact Or.inr ⟨dayId, day, hmd, hfind, by rw [h]; rfl, rfl, rfl⟩
  · intro st date restoreDate reason admin today gw
    rcases adminRefund_ledger_cases st date restoreDate reason admin today gw
      with h | ⟨day, r, hfind, _, hgw, h⟩
    · exact Or.inl h
    · exact Or.inr ⟨day, r, hfind, hgw, by rw [h]; rfl, rfl, rfl⟩
  · intro st date text admin emojisAllowed st1 h
    obtain ⟨day, hfind, hsold, hst1⟩ := editDedicationText_ok_inv h
    exact ⟨day, hfind, hsold, by rw [hst1]; rfl, rfl, rfl, rfl⟩

/-- Witness for the amended C5: the expire-holds contract evaluated on the
concrete C5 ledger. -/
theorem spec_c5_amended_witness :
    (expireHolds c5Ledger 15).audit =
      c5Ledger.audit ++
        (c5Ledger.days.filter (isExpiredHold 15)).map holdExpiredEntry :=
  (spec_c5_amended.2.2.1 c5Ledger 15).1
